import Mathlib

/-!
# Connection settings and session discipline of `common/session.cc`

A shallow embedding of `prepare_options`, `Settings_impl::get_data_source`
(with its two closures `add_host` and `add_socket`),
`Session_impl::prepare_for_cmd` and `GUID::generate`.

Conventions of the embedding.

* An iterator into the option list is the list of entries not yet visited:
  `it == end()` is the empty list and `++it` is the tail.
* A C++ exception raised by `throw_error(msg)` is `Failure.error msg`; a failed
  `assert` is `Failure.assertion` (the behaviour of a build with assertions
  enabled).  Both end the computation.
* The connector `cdk::ds::Multi_source` is the list of `add` calls it received
  since its last `clear`, oldest first.  A computation that can fail after it
  touched the connector returns the connector state next to its outcome.
* The preprocessor symbol `WITH_SSL` is the Boolean parameter `with_ssl`.
* The operations of the transport layer that `session.cc` calls (the
  constructors of the options and of the endpoint, the setters, `clear` and
  `add` of the connector) record their arguments and do not fail.
* Machine integers are `Nat`/`Int` with the casts written as explicit
  reductions (`unsigned`, `unsigned short`, `int`).
-/

namespace mysqlx

/-! ## Data model -/

/-- Keys of the option store (`Settings_impl::Option`, declared in `settings.h`). -/
inductive Settings_impl.Option
  | HOST | PORT | SOCKET | USER | PWD | DB | SSL_MODE | SSL_CA | AUTH | PRIORITY
  deriving DecidableEq, Repr

/-- How a computation ends abnormally: a thrown error with its message, or a
failed `assert`.  `out_of_fuel` is an artefact of the loop model only (the
scan loop is given as many iterations as the store has entries). -/
inductive Failure
  | error (msg : String)
  | assertion
  | out_of_fuel
  deriving DecidableEq, Repr

/-- Modelled from the spec: the class `Value` is declared outside `session.cc`.
It is a tagged union of a string and an unsigned integer (enumerated settings
are stored as unsigned integers). -/
inductive Value
  | str (s : String)
  | uint (n : Nat)
  deriving DecidableEq, Repr

/-- Modelled from the spec: `Value::get_string`, with no coercion across tags. -/
def Value.get_string : Value → Except Failure String
  | .str s => .ok s
  | .uint _ => .error (.error "Value cannot be converted to string")

/-- Modelled from the spec: `Value::get_uint`, with no coercion across tags. -/
def Value.get_uint : Value → Except Failure Nat
  | .uint n => .ok n
  | .str _ => .error (.error "Can not convert to integer value")

/-- Modelled from the spec: the user-facing TLS modes of `SSL_MODE_LIST`
(`settings.h`), in the order the spec lists them. -/
inductive Settings_impl.SSL_mode
  | DISABLED | REQUIRED | VERIFY_CA | VERIFY_IDENTITY
  deriving DecidableEq, Repr

/-- Modelled from the spec: the integer under which a TLS mode is stored in
the option store (`unsigned(SSL_mode::X)`). -/
def Settings_impl.SSL_mode.code : Settings_impl.SSL_mode → Nat
  | .DISABLED => 1
  | .REQUIRED => 2
  | .VERIFY_CA => 3
  | .VERIFY_IDENTITY => 4

/-- Modelled from the spec: the user-facing authentication methods of
`AUTH_METHOD_LIST` (`settings.h`): `PLAIN`, the legacy hashed method `MYSQL41`
and one further method passed through unchanged. -/
inductive Settings_impl.Auth_method
  | PLAIN | MYSQL41 | EXTERNAL
  deriving DecidableEq, Repr

/-- Modelled from the spec: the integer under which an authentication method
is stored in the option store. -/
def Settings_impl.Auth_method.code : Settings_impl.Auth_method → Nat
  | .PLAIN => 1
  | .MYSQL41 => 2
  | .EXTERNAL => 3

/-- Modelled from the spec: the transport-facing TLS mode
(`TLS_options::SSL_MODE`), with the variants the translation produces. -/
inductive SSL_MODE
  | DISABLED | REQUIRED | VERIFY_CA | VERIFY_IDENTITY
  deriving DecidableEq, Repr

/-- Modelled from the spec: the transport-facing authentication method
(`TCPIP_options::auth_method_t`); `DEFAULT` is the value of freshly
constructed options on which no method was set. -/
inductive auth_method_t
  | DEFAULT | PLAIN | MYSQL41 | EXTERNAL
  deriving DecidableEq, Repr

/-- Modelled from the spec: the TLS policy `TLS_options`: a mode, an optional
CA path (`set_ca`) and an optional expected name (`set_cn`). -/
structure TLS_options where
  ssl_mode : SSL_MODE
  ca : Option String := none
  cn : Option String := none
  deriving DecidableEq, Repr

/-- Modelled from the spec: the connection options `cdk::ds::TCPIP::Options`
as far as `session.cc` writes them.  `tls = none` means `set_tls` was never
called. -/
structure TCPIP_options where
  user : String
  pwd : Option String
  database : Option String := none
  tls : Option TLS_options := none
  auth_method : auth_method_t := .DEFAULT
  deriving DecidableEq, Repr

/-- A network endpoint `cdk::ds::TCPIP(host, port)`; the port is an
`unsigned short`. -/
structure TCPIP where
  host : String
  port : Nat
  deriving DecidableEq, Repr

/-- One call `src.add(ds, opts, prio)` received by the connector. -/
structure Target where
  ds : TCPIP
  opts : TCPIP_options
  prio : Nat
  deriving DecidableEq, Repr

/-- Modelled from the spec: the multi-target connector `cdk::ds::Multi_source`,
as the sequence of targets added since the last `clear`. -/
structure Multi_source where
  targets : List Target
  deriving DecidableEq, Repr

/-- The connector operation `clear()`. -/
def Multi_source.clear (_src : Multi_source) : Multi_source := ⟨[]⟩

/-- The connector operation `add(ds, opts, prio)`. -/
def Multi_source.add (src : Multi_source) (ds : TCPIP) (opts : TCPIP_options)
    (prio : Nat) : Multi_source :=
  ⟨src.targets ++ [⟨ds, opts, prio⟩]⟩

/-- The connector operation `size()`. -/
def Multi_source.size (src : Multi_source) : Nat := src.targets.length

/-- The members of `Settings_impl::Data` that `session.cc` reads. -/
structure Settings_impl.Data where
  m_options : List (Settings_impl.Option × Value)
  m_host_cnt : Nat
  m_user_priorities : Bool
  m_sock : Bool
  deriving DecidableEq, Repr

/-- The settings object: an ordered option store with its counters and flags. -/
structure Settings_impl where
  m_data : Settings_impl.Data
  deriving DecidableEq, Repr

/-- Modelled from the spec: `Settings_impl::has_option` (`settings.h`): some
entry of the store has the key. -/
def Settings_impl.has_option (self : Settings_impl) (opt : Settings_impl.Option) : Bool :=
  self.m_data.m_options.any (fun el => el.1 == opt)

/-- Modelled from the spec: `Settings_impl::get` (`settings.h`): the value of
the entry with the key; the options read through it are singletons, and of
several entries the one set last is taken.  Every call in `session.cc` is
guarded by `has_option`, so the failure for an absent key is never reached. -/
def Settings_impl.get (self : Settings_impl) (opt : Settings_impl.Option) :
    Except Failure Value :=
  match self.m_data.m_options.reverse.find? (fun el => el.1 == opt) with
  | some el => .ok el.2
  | none => .error (.error "option not set")

/-- Modelled from the spec: the driver's standard port `DEFAULT_MYSQLX_PORT`. -/
def DEFAULT_MYSQLX_PORT : Nat := 33060

/-! ## Settings resolver -/

/-- The translation `get_auth`: a `switch` over `AUTH_METHOD_LIST` whose
`default` branch is `assert(false)`. -/
def get_auth (m : Nat) : Except Failure auth_method_t :=
  if m = Settings_impl.Auth_method.PLAIN.code then .ok .PLAIN
  else if m = Settings_impl.Auth_method.MYSQL41.code then .ok .MYSQL41
  else if m = Settings_impl.Auth_method.EXTERNAL.code then .ok .EXTERNAL
  else .error .assertion

/-- The translation `get_ssl_mode`: a `switch` over `SSL_MODE_LIST` whose
`default` branch is `assert(false)`. -/
def get_ssl_mode (m : Nat) : Except Failure SSL_MODE :=
  if m = Settings_impl.SSL_mode.DISABLED.code then .ok .DISABLED
  else if m = Settings_impl.SSL_mode.REQUIRED.code then .ok .REQUIRED
  else if m = Settings_impl.SSL_mode.VERIFY_CA.code then .ok .VERIFY_CA
  else if m = Settings_impl.SSL_mode.VERIFY_IDENTITY.code then .ok .VERIFY_IDENTITY
  else .error .assertion

/-- The cast `(unsigned)` of a 64-bit unsigned value. -/
def to_unsigned (v : Nat) : Nat := v % 4294967296

/-- The cast `(unsigned short)` of an unsigned value. -/
def to_ushort (v : Nat) : Nat := v % 65536

/-- The cast `(int)` of a 64-bit unsigned value (32-bit two's complement). -/
def to_int (v : Nat) : Int :=
  if v % 4294967296 < 2147483648 then (v % 4294967296 : Nat)
  else ((v % 4294967296 : Nat) : Int) - 4294967296

/-- The cast `(unsigned short)` of an `int`. -/
def int_to_ushort (p : Int) : Nat := (p % 65536).toNat

/-- The first statements of `prepare_options`: the check for `USER`, the
construction `TCPIP_options(user, pwd)` and the database. -/
def prepare_basic (settings : Settings_impl) : Except Failure TCPIP_options :=
  if !settings.has_option .USER then .error (.error "USER option not defined")
  else do
    let user ← (← settings.get .USER).get_string
    let pwd ← if settings.has_option .PWD
      then (do let p ← (← settings.get .PWD).get_string; pure (some p))
      else pure none
    let opts : TCPIP_options := { user := user, pwd := pwd }
    if settings.has_option .DB then
      let db ← (← settings.get .DB).get_string
      pure { opts with database := some db }
    else pure opts

/-- The variable `mode` of `prepare_options`: `REQUIRED` by default, the value
of `SSL_MODE` when set, else `VERIFY_CA` when `SSL_CA` is set. -/
def prepare_mode (settings : Settings_impl) : Except Failure Nat :=
  if settings.has_option .SSL_MODE then do
    let v ← (← settings.get .SSL_MODE).get_uint
    pure (to_unsigned v)
  else if settings.has_option .SSL_CA then
    pure Settings_impl.SSL_mode.VERIFY_CA.code
  else pure Settings_impl.SSL_mode.REQUIRED.code

/-- The authentication statement that ends `prepare_options`: the mapped
`AUTH` value when set, else `PLAIN` or `MYSQL41` by `secure`. -/
def prepare_auth (settings : Settings_impl) (secure : Bool) (opts : TCPIP_options) :
    Except Failure TCPIP_options :=
  if settings.has_option .AUTH then do
    let v ← (← settings.get .AUTH).get_uint
    let a ← get_auth (to_unsigned v)
    pure { opts with auth_method := a }
  else
    pure { opts with auth_method := if secure then .PLAIN else .MYSQL41 }

/-- The function `prepare_options(settings, secure, opts)`; the result is the
final value of `opts`.  With `with_ssl = false` the `#ifdef WITH_SSL` blocks
are absent, so the `else` of the mode test is followed directly by the
authentication statement and governs it. -/
def prepare_options (with_ssl : Bool) (settings : Settings_impl) (secure : Bool) :
    Except Failure TCPIP_options := do
  let opts ← prepare_basic settings
  let mode ← prepare_mode settings
  if with_ssl then
    if Settings_impl.SSL_mode.DISABLED.code = mode then
      prepare_auth settings secure { opts with tls := some { ssl_mode := .DISABLED } }
    else
      let m ← get_ssl_mode mode
      let tls_opt : TLS_options := { ssl_mode := m }
      let tls_opt ← if settings.has_option .SSL_CA
        then (do let ca ← (← settings.get .SSL_CA).get_string
                 pure { tls_opt with ca := some ca })
        else pure tls_opt
      prepare_auth settings true { opts with tls := some tls_opt }
  else
    if Settings_impl.SSL_mode.DISABLED.code = mode then
      pure opts
    else
      prepare_auth settings secure opts

/-! ## Endpoint list builder -/

/-- One entry of the option store (`opt_val_t`). -/
abbrev Settings_impl.opt_val_t := Settings_impl.Option × Value

/-- An iterator into the option store: the entries from the cursor to the end. -/
abbrev Settings_impl.iterator := List Settings_impl.opt_val_t

/-- First block of the closure `add_host`: the host name.  At a `PORT` entry
the host stays `"localhost"` and the cursor stays (`assert(0 == m_host_cnt)`);
otherwise the entry must be `HOST`, its string is the host and the cursor
moves on. -/
def Settings_impl.add_host_name (self : Settings_impl) (it : Settings_impl.iterator) :
    Except Failure (String × Settings_impl.iterator) :=
  match it with
  | [] => .error .assertion
  | (k, v) :: rest =>
    if k = .PORT then
      if self.m_data.m_host_cnt = 0 then .ok ("localhost", (k, v) :: rest)
      else .error .assertion
    else if k = .HOST then
      match v.get_string with
      | .ok host => .ok (host, rest)
      | .error e => .error e
    else .error .assertion

/-- Second block of `add_host` (look for PORT): when the cursor is at a `PORT`
entry its value, cast to `unsigned short`, is the port and the cursor moves
on; otherwise the port is `DEFAULT_MYSQLX_PORT`. -/
def Settings_impl.add_host_port (it : Settings_impl.iterator) :
    Except Failure (Nat × Settings_impl.iterator) :=
  match it with
  | (.PORT, v) :: rest =>
    match v.get_uint with
    | .ok p => .ok (to_ushort p, rest)
    | .error e => .error e
  | _ => .ok (DEFAULT_MYSQLX_PORT, it)

/-- Third block of `add_host` (look for priority): with `0 > prio` the cursor
must be at a `PRIORITY` entry, whose value cast to `int` becomes the priority,
else the error is thrown; with `0 <= prio` nothing is read. -/
def Settings_impl.add_host_prio (it : Settings_impl.iterator) (prio : Int) :
    Except Failure (Int × Settings_impl.iterator) :=
  if 0 > prio then
    match it with
    | (.PRIORITY, v) :: rest =>
      match v.get_uint with
      | .ok q => .ok (to_int q, rest)
      | .error e => .error e
    | _ => .error (.error "No priority specified for host ...")
  else .ok (prio, it)

/-- The test `it == end() || Option::PRIORITY != it->first`. -/
def Settings_impl.no_priority_here (it : Settings_impl.iterator) : Bool :=
  match it with
  | (.PRIORITY, _) :: _ => false
  | _ => true

/-- The `#ifdef WITH_SSL` block of `add_host`: when the mode of the TLS options
is `VERIFY_IDENTITY`, the expected CN is set to the host. -/
def Settings_impl.add_host_cn (with_ssl : Bool) (opts : TCPIP_options) (host : String) :
    TCPIP_options :=
  if with_ssl then
    match opts.tls with
    | some tls =>
      if tls.ssl_mode = .VERIFY_IDENTITY then { opts with tls := some { tls with cn := some host } }
      else opts
    | none => opts
  else opts

/-- The closure `add_host(it, prio)` of `get_data_source`.  It captures `opts`
and `src` by reference and takes the cursor by reference: the result is the
new cursor, the new `opts` and the new connector state.  Every failure
happens before `src.add`. -/
def Settings_impl.add_host (with_ssl : Bool) (self : Settings_impl)
    (it : Settings_impl.iterator) (prio : Int) (opts : TCPIP_options) (src : Multi_source) :
    Except Failure (Settings_impl.iterator × TCPIP_options × Multi_source) :=
  match self.add_host_name it with
  | .error e => .error e
  | .ok (host, it1) =>
    match Settings_impl.add_host_port it1 with
    | .error e => .error e
    | .ok (port, it2) =>
      match Settings_impl.add_host_prio it2 prio with
      | .error e => .error e
      | .ok (prio1, it3) =>
        if ¬ (0 ≤ prio1 ∧ prio1 ≤ 100) then .error .assertion
        else if ¬ Settings_impl.no_priority_here it3 then .error .assertion
        else
          let opts1 := Settings_impl.add_host_cn with_ssl opts host
          .ok (it3, opts1, src.add ⟨host, port⟩ opts1 (int_to_ushort prio1))

/-- The closure `add_socket(it, prio)`: its body is `assert(false)`. -/
def Settings_impl.add_socket (_it : Settings_impl.iterator) (_prio : Int) :
    Except Failure Unit :=
  .error .assertion

/-- The scan loop `for (auto it = begin(); it != end();)` of `get_data_source`,
from cursor `it` with the current values of `prio`, `opts` and `src`.  The
first argument bounds the number of iterations.  The result is the outcome
and the connector state reached. -/
def Settings_impl.scan (with_ssl : Bool) (self : Settings_impl) :
    Nat → Settings_impl.iterator → Int → TCPIP_options → Multi_source →
    Except Failure Unit × Multi_source
  | _, [], _, _, src => (.ok (), src)
  | 0, _ :: _, _, _, src => (.error .out_of_fuel, src)
  | fuel + 1, (k, v) :: rest, prio, opts, src =>
    match k with
    | .HOST =>
      match self.add_host with_ssl ((k, v) :: rest) prio opts src with
      | .error e => (.error e, src)
      | .ok (it1, opts1, src1) => Settings_impl.scan with_ssl self fuel it1 (prio - 1) opts1 src1
    | .SOCKET =>
      match Settings_impl.add_socket ((k, v) :: rest) prio with
      | .error e => (.error e, src)
      | .ok _ => Settings_impl.scan with_ssl self fuel ((k, v) :: rest) (prio - 1) opts src
    | .PORT =>
      if self.m_data.m_host_cnt = 0 then
        match self.add_host with_ssl ((k, v) :: rest) prio opts src with
        | .error e => (.error e, src)
        | .ok (it1, opts1, src1) => Settings_impl.scan with_ssl self fuel it1 (prio - 1) opts1 src1
      else (.error .assertion, src)
    | _ => Settings_impl.scan with_ssl self fuel rest prio opts src

/-- The method `Settings_impl::get_data_source(src)`: the outcome and the
state in which the connector is left. -/
def Settings_impl.get_data_source (with_ssl : Bool) (self : Settings_impl)
    (src : Multi_source) : Except Failure Unit × Multi_source :=
  let secure := self.m_data.m_sock && (1 == self.m_data.m_host_cnt)
  match prepare_options with_ssl self secure with
  | .error e => (.error e, src)
  | .ok opts =>
    let src0 := src.clear
    let prio : Int := if self.m_data.m_user_priorities then -1 else 100
    match Settings_impl.scan with_ssl self self.m_data.m_options.length
        self.m_data.m_options prio opts src0 with
    | (.error e, src1) => (.error e, src1)
    | (.ok _, src1) =>
      if 0 < src1.size then (.ok (), src1) else (.error .assertion, src1)

/-! ## Session result discipline -/

/-- Modelled from the spec: the result object behind `m_current_result`
(`result.h`), as far as the session uses it: `id` tells results apart, and
`store_failure` is the error that its `store()` throws, if it throws. -/
structure Result_impl where
  id : Nat
  store_failure : Option Failure := none
  deriving DecidableEq, Repr

/-- Modelled from the spec: `Result_impl::store()`, the external
materialization routine: it completes, or fails with its error. -/
def Result_impl.store (r : Result_impl) : Except Failure Unit :=
  match r.store_failure with
  | none => .ok ()
  | some e => .error e

/-- The session, as far as `prepare_for_cmd` touches it: the pointer
`m_current_result` (`none` is `nullptr`), and the trace of the `store()` calls
made through it so far, oldest first: the id of the result and whether the
call completed. -/
structure Session_impl where
  m_current_result : Option Result_impl
  store_calls : List (Nat × Bool) := []
  deriving DecidableEq, Repr

/-- The method `Session_impl::prepare_for_cmd()`: the outcome and the session
state after it.  An exception thrown by `store()` leaves the function before
the assignment `m_current_result = nullptr`. -/
def Session_impl.prepare_for_cmd (self : Session_impl) : Except Failure Unit × Session_impl :=
  match self.m_current_result with
  | some r =>
    match r.store with
    | .error e => (.error e, { self with store_calls := self.store_calls ++ [(r.id, false)] })
    | .ok _ =>
      (.ok (), { m_current_result := none, store_calls := self.store_calls ++ [(r.id, true)] })
  | none => (.ok (), { self with m_current_result := none })

/-! ## GUID -/

/-- The table `hex_digit` of `GUID::generate`: the characters of
"0123456789ABCDEF". -/
def GUID.hex_digit : List Char := "0123456789ABCDEF".toList

/-- The read `hex_digit[n]`; the table is only read at a nibble, `n < 16`. -/
def GUID.hex_digit_at (n : Nat) : Char := GUID.hex_digit.getD n '0'

/-- The loop `for (unsigned i = 0; i < sizeof(uuid) && 2*i < sizeof(m_data); ++i)`
of `GUID::generate`, from index `i` with the current buffer.  The bytes of
`uuid` are the values of an `unsigned char` array, `m_data` is the `char`
buffer of the GUID; the first argument bounds the number of iterations.  A
write to `m_data[2*i+1]` needs `2*i+1 < sizeof(m_data)`, which the loop test
gives for a buffer of even size; outside the buffer nothing is written. -/
def GUID.generate_loop (uuid : List Nat) : Nat → Nat → List Char → List Char
  | 0, _, m_data => m_data
  | fuel + 1, i, m_data =>
    if i < uuid.length ∧ 2 * i < m_data.length then
      GUID.generate_loop uuid fuel (i + 1)
        ((m_data.set (2 * i) (GUID.hex_digit_at (uuid.getD i 0 >>> 4))).set (2 * i + 1)
          (GUID.hex_digit_at (uuid.getD i 0 % 16)))
    else m_data

/-- The method `GUID::generate()`, given the bytes that the external
`generate_uuid` produced and the buffer `m_data`: the new content of
`m_data`.  The loop runs at most `sizeof(uuid)` times. -/
def GUID.generate (uuid : List Nat) (m_data : List Char) : List Char :=
  GUID.generate_loop uuid uuid.length 0 m_data

/-- The value of a hexadecimal digit: its position in "0123456789ABCDEF". -/
def GUID.hex_value (c : Char) : Nat := GUID.hex_digit.indexOf c

/-! ## Well-formed option stores -/

/-- The value of an entry has the tag of its key: strings for `HOST`, `SOCKET`,
`USER`, `PWD`, `DB` and `SSL_CA`, unsigned integers for `PORT` and `PRIORITY`,
and the code of an enumerated mode or method for `SSL_MODE` and `AUTH`. -/
def Settings_impl.entry_ok : Settings_impl.opt_val_t → Bool
  | (.HOST, .str _) => true
  | (.SOCKET, .str _) => true
  | (.USER, .str _) => true
  | (.PWD, .str _) => true
  | (.DB, .str _) => true
  | (.SSL_CA, .str _) => true
  | (.PORT, .uint _) => true
  | (.PRIORITY, .uint _) => true
  | (.SSL_MODE, .uint n) =>
    decide (n ∈ [Settings_impl.SSL_mode.DISABLED.code, Settings_impl.SSL_mode.REQUIRED.code,
      Settings_impl.SSL_mode.VERIFY_CA.code, Settings_impl.SSL_mode.VERIFY_IDENTITY.code])
  | (.AUTH, .uint n) =>
    decide (n ∈ [Settings_impl.Auth_method.PLAIN.code, Settings_impl.Auth_method.MYSQL41.code,
      Settings_impl.Auth_method.EXTERNAL.code])
  | _ => false

/-- Every entry of the store has a value of the tag of its key. -/
def Settings_impl.well_typed (self : Settings_impl) : Bool :=
  self.m_data.m_options.all Settings_impl.entry_ok

/-- The transport-facing TLS mode of the same name as a user-facing one. -/
def Settings_impl.SSL_mode.to_cdk : Settings_impl.SSL_mode → SSL_MODE
  | .DISABLED => .DISABLED
  | .REQUIRED => .REQUIRED
  | .VERIFY_CA => .VERIFY_CA
  | .VERIFY_IDENTITY => .VERIFY_IDENTITY

/-! ## The grouping of the option store

The store invariant of the data model: the entries of one endpoint group are
contiguous, `HOST [PORT] [PRIORITY]`, and session-wide settings stand anywhere
between the groups.  A store of this shape is the concatenation of the entries
of a list of items. -/

/-- One endpoint group `HOST [PORT] [PRIORITY]`: the host string, the value of
the `PORT` entry when there is one, the value of the `PRIORITY` entry when
there is one. -/
structure Host_group where
  host : String
  port : Option Nat := none
  priority : Option Nat := none
  deriving DecidableEq, Repr

/-- A session-wide setting with a value of its tag. -/
inductive Global
  | USER (s : String)
  | PWD (s : String)
  | DB (s : String)
  | SSL_MODE (m : Settings_impl.SSL_mode)
  | SSL_CA (s : String)
  | AUTH (a : Settings_impl.Auth_method)
  deriving DecidableEq, Repr

/-- An item of a grouped store: an endpoint group or a session-wide setting. -/
inductive Item
  | host (g : Host_group)
  | global (o : Global)
  deriving DecidableEq, Repr

/-- The store entry of a session-wide setting. -/
def Global.entry : Global → Settings_impl.opt_val_t
  | .USER s => (.USER, .str s)
  | .PWD s => (.PWD, .str s)
  | .DB s => (.DB, .str s)
  | .SSL_MODE m => (.SSL_MODE, .uint m.code)
  | .SSL_CA s => (.SSL_CA, .str s)
  | .AUTH a => (.AUTH, .uint a.code)

/-- The `PORT` entry of a group, if any. -/
def Host_group.port_entries (g : Host_group) : List Settings_impl.opt_val_t :=
  match g.port with
  | some p => [(.PORT, .uint p)]
  | none => []

/-- The `PRIORITY` entry of a group, if any. -/
def Host_group.priority_entries (g : Host_group) : List Settings_impl.opt_val_t :=
  match g.priority with
  | some q => [(.PRIORITY, .uint q)]
  | none => []

/-- The store entries of an endpoint group, `HOST [PORT] [PRIORITY]`. -/
def Host_group.entries (g : Host_group) : List Settings_impl.opt_val_t :=
  (.HOST, .str g.host) :: (g.port_entries ++ g.priority_entries)

/-- The store entries of an item. -/
def Item.entries : Item → List Settings_impl.opt_val_t
  | .host g => g.entries
  | .global o => [o.entry]

/-- The option store made of the items, in order. -/
def store_of : List Item → List Settings_impl.opt_val_t
  | [] => []
  | i :: rest => i.entries ++ store_of rest

/-- The endpoint groups among the items, in store order. -/
def groups_of : List Item → List Host_group
  | [] => []
  | .host g :: rest => g :: groups_of rest
  | .global _ :: rest => groups_of rest

/-- The network endpoint a group stands for: its host, and its port cast to
`unsigned short` or the default port. -/
def Host_group.ds (g : Host_group) : TCPIP :=
  ⟨g.host, match g.port with
    | some p => to_ushort p
    | none => DEFAULT_MYSQLX_PORT⟩

/-- The target of a group under the base options `opts` with priority `p`. -/
def Host_group.target (with_ssl : Bool) (opts : TCPIP_options) (g : Host_group) (p : Nat) :
    Target :=
  ⟨g.ds, Settings_impl.add_host_cn with_ssl opts g.host, p⟩

/-- The targets of groups whose priorities count down from `p`. -/
def auto_targets (with_ssl : Bool) (opts : TCPIP_options) : Int → List Host_group → List Target
  | _, [] => []
  | p, g :: rest => g.target with_ssl opts (int_to_ushort p) :: auto_targets with_ssl opts (p - 1) rest

/-- The targets of groups that each take the value of their `PRIORITY` entry. -/
def explicit_targets (with_ssl : Bool) (opts : TCPIP_options) (gs : List Host_group) :
    List Target :=
  gs.map (fun g => g.target with_ssl opts (g.priority.getD 0))

/-- The settings object whose store is made of the items. -/
def settings_of (items : List Item) (host_cnt : Nat) (user_priorities sock : Bool) :
    Settings_impl :=
  ⟨⟨store_of items, host_cnt, user_priorities, sock⟩⟩

/-- The `PRIORITY` entry of a value, if there is one. -/
def priority_entry : Option Nat → List Settings_impl.opt_val_t
  | some n => [(.PRIORITY, .uint n)]
  | none => []

/-- A store whose only endpoint group is headed by a `PORT` entry:
session-wide settings, `PORT p`, the `PRIORITY` entry if any, and further
session-wide settings. -/
def port_only_store (pre post : List Global) (p : Nat) (q : Option Nat) :
    List Settings_impl.opt_val_t :=
  store_of (pre.map Item.global) ++
    (.PORT, .uint p) :: (priority_entry q ++ store_of (post.map Item.global))

/-! ## Concrete stores -/

/-- The store `HOST a, PORT 33060, HOST b, PORT 33061, USER u`. -/
def two_hosts : List Item :=
  [.host ⟨"a", some 33060, none⟩, .host ⟨"b", some 33061, none⟩, .global (.USER "u")]

/-- The store `HOST a, PRIORITY 1, HOST b, PORT 33061, PRIORITY 2, USER u`, with
the priorities listed in ascending order. -/
def ascending_priorities : List Item :=
  [.host ⟨"a", none, some 1⟩, .host ⟨"b", some 33061, some 2⟩, .global (.USER "u")]

/-- The store `USER u, HOST a, PRIORITY 7, HOST b`: the first group has a
priority, the second has none. -/
def priority_then_none : List Item :=
  [.global (.USER "u"), .host ⟨"a", none, some 7⟩, .host ⟨"b", none, none⟩]

/-- The store `HOST a, HOST b, PRIORITY 7, USER u`: the first group has no
priority, the second has one. -/
def none_then_priority : List Item :=
  [.host ⟨"a", none, none⟩, .host ⟨"b", none, some 7⟩, .global (.USER "u")]

/-- A store of 102 groups `HOST h` followed by `USER u`. -/
def hosts_102 : List Item :=
  List.replicate 102 (.host ⟨"h", none, none⟩) ++ [.global (.USER "u")]

/-- The raw store `SSL_MODE VERIFY_IDENTITY, HOST a, HOST b, PORT 33061, USER u`
with two hosts. -/
def verify_identity_store : Settings_impl :=
  ⟨⟨[(.SSL_MODE, .uint 4), (.HOST, .str "a"), (.HOST, .str "b"), (.PORT, .uint 33061),
    (.USER, .str "u")], 2, false, false⟩⟩

/-- A session with the pending result 7, whose `store()` completes. -/
def pending_session : Session_impl :=
  { m_current_result := some { id := 7 } }

/-- A session with the pending result 7, whose `store()` throws. -/
def failing_session : Session_impl :=
  { m_current_result := some { id := 7, store_failure := some (.error "lost connection") } }

/-- The raw store `USER u`, in which neither `SSL_MODE` nor `SSL_CA` is set. -/
def user_only : Settings_impl :=
  ⟨⟨[(.USER, .str "u")], 0, false, false⟩⟩

/-- The raw store `USER u, SSL_MODE DISABLED`. -/
def disabled_store : Settings_impl :=
  ⟨⟨[(.USER, .str "u"), (.SSL_MODE, .uint Settings_impl.SSL_mode.DISABLED.code)], 0, false,
    false⟩⟩

/-- The raw store `USER u, SSL_MODE DISABLED, AUTH PLAIN`. -/
def disabled_plain_store : Settings_impl :=
  ⟨⟨[(.USER, .str "u"), (.SSL_MODE, .uint Settings_impl.SSL_mode.DISABLED.code),
    (.AUTH, .uint Settings_impl.Auth_method.PLAIN.code)], 0, false, false⟩⟩

/-- The store `HOST h, PORT 70000, USER u`, whose port does not fit 16 bits. -/
def wide_port : List Item :=
  [.host ⟨"h", some 70000, none⟩, .global (.USER "u")]

/-- Sixteen bytes of a UUID. -/
def sample_uuid : List Nat :=
  [0, 1, 35, 69, 103, 137, 171, 205, 239, 255, 16, 32, 48, 64, 80, 96]

/-- A GUID buffer of 32 characters. -/
def blank_guid : List Char := List.replicate 32 ' '

/-! ## Lemmas on the option store -/

theorem Settings_impl.get_of_has_option (self : Settings_impl) (opt : Settings_impl.Option)
    (h : self.has_option opt = true) :
    ∃ v, self.get opt = .ok v ∧ (opt, v) ∈ self.m_data.m_options := by
  unfold Settings_impl.has_option at h
  unfold Settings_impl.get
  rw [List.any_eq_true] at h
  obtain ⟨el, hel, hk⟩ := h
  cases hf : self.m_data.m_options.reverse.find? (fun el => el.1 == opt) with
  | none =>
    rw [List.find?_eq_none] at hf
    exact absurd hk (hf el (List.mem_reverse.mpr hel))
  | some x =>
    have hx := List.find?_some hf
    have hm := List.mem_reverse.mp (List.mem_of_find?_eq_some hf)
    have hk2 : x.1 = opt := by simpa using hx
    refine ⟨x.2, rfl, ?_⟩
    rw [← hk2]
    exact hm

theorem Settings_impl.entry_ok_of_mem (self : Settings_impl) (opt : Settings_impl.Option)
    (v : Value) (ht : self.well_typed = true) (hm : (opt, v) ∈ self.m_data.m_options) :
    Settings_impl.entry_ok (opt, v) = true := by
  unfold Settings_impl.well_typed at ht
  rw [List.all_eq_true] at ht
  exact ht _ hm

/-- A string-valued option that is set is read without failure. -/
theorem Settings_impl.get_string_of_has (self : Settings_impl) (opt : Settings_impl.Option)
    (ht : self.well_typed = true) (h : self.has_option opt = true)
    (hk : opt = .USER ∨ opt = .PWD ∨ opt = .DB ∨ opt = .SSL_CA) :
    ∃ s, self.get opt = .ok (.str s) := by
  obtain ⟨v, hv, hm⟩ := self.get_of_has_option opt h
  have hok := self.entry_ok_of_mem opt v ht hm
  rcases hk with rfl | rfl | rfl | rfl <;> cases v <;>
    simp [Settings_impl.entry_ok] at hok <;> exact ⟨_, hv⟩

/-- A set `SSL_MODE` holds the code of one of the four modes. -/
theorem Settings_impl.get_ssl_mode_of_has (self : Settings_impl)
    (ht : self.well_typed = true) (h : self.has_option .SSL_MODE = true) :
    ∃ M : Settings_impl.SSL_mode, self.get .SSL_MODE = .ok (.uint M.code) := by
  obtain ⟨v, hv, hm⟩ := self.get_of_has_option _ h
  have hok := self.entry_ok_of_mem _ v ht hm
  cases v with
  | str s => simp [Settings_impl.entry_ok] at hok
  | uint n =>
    simp [Settings_impl.entry_ok] at hok
    rcases hok with rfl | rfl | rfl | rfl
    · exact ⟨.DISABLED, hv⟩
    · exact ⟨.REQUIRED, hv⟩
    · exact ⟨.VERIFY_CA, hv⟩
    · exact ⟨.VERIFY_IDENTITY, hv⟩

/-- A set `AUTH` holds the code of one of the methods. -/
theorem Settings_impl.get_auth_of_has (self : Settings_impl)
    (ht : self.well_typed = true) (h : self.has_option .AUTH = true) :
    ∃ A : Settings_impl.Auth_method, self.get .AUTH = .ok (.uint A.code) := by
  obtain ⟨v, hv, hm⟩ := self.get_of_has_option _ h
  have hok := self.entry_ok_of_mem _ v ht hm
  cases v with
  | str s => simp [Settings_impl.entry_ok] at hok
  | uint n =>
    simp [Settings_impl.entry_ok] at hok
    rcases hok with rfl | rfl | rfl
    · exact ⟨.PLAIN, hv⟩
    · exact ⟨.MYSQL41, hv⟩
    · exact ⟨.EXTERNAL, hv⟩

/-! ## Lemmas on the settings resolver -/

theorem get_ssl_mode_code (M : Settings_impl.SSL_mode) :
    get_ssl_mode (to_unsigned M.code) = .ok M.to_cdk := by
  cases M <;> rfl

theorem get_auth_code (A : Settings_impl.Auth_method) :
    ∃ a, get_auth (to_unsigned A.code) = .ok a := by
  cases A <;> exact ⟨_, rfl⟩

/-- With `USER` set in a well-typed store the basic options are built, and
they carry no TLS policy and no authentication method yet. -/
theorem prepare_basic_ok (settings : Settings_impl)
    (hu : settings.has_option .USER = true) (ht : settings.well_typed = true) :
    ∃ opts, prepare_basic settings = .ok opts ∧ opts.tls = none ∧
      opts.auth_method = .DEFAULT := by
  obtain ⟨u, hgu⟩ := settings.get_string_of_has .USER ht hu (by simp)
  unfold prepare_basic
  by_cases hp : settings.has_option .PWD = true
  · obtain ⟨p, hgp⟩ := settings.get_string_of_has .PWD ht hp (by simp)
    by_cases hd : settings.has_option .DB = true
    · obtain ⟨d, hgd⟩ := settings.get_string_of_has .DB ht hd (by simp)
      simp [hu, hp, hd, hgu, hgp, hgd, Value.get_string, bind, Except.bind, pure, Except.pure]
    · simp [hu, hp, hd, hgu, hgp, Value.get_string, bind, Except.bind, pure, Except.pure]
  · by_cases hd : settings.has_option .DB = true
    · obtain ⟨d, hgd⟩ := settings.get_string_of_has .DB ht hd (by simp)
      simp [hu, hp, hd, hgu, hgd, Value.get_string, bind, Except.bind, pure, Except.pure]
    · simp [hu, hp, hd, hgu, Value.get_string, bind, Except.bind, pure, Except.pure]

/-- The authentication statement succeeds on a well-typed store; it leaves the
TLS policy alone and, without `AUTH`, chooses by `secure`. -/
theorem prepare_auth_ok (settings : Settings_impl) (secure : Bool) (opts : TCPIP_options)
    (ht : settings.well_typed = true) :
    ∃ opts1, prepare_auth settings secure opts = .ok opts1 ∧ opts1.tls = opts.tls ∧
      (settings.has_option .AUTH = false →
        opts1.auth_method = if secure then .PLAIN else .MYSQL41) := by
  unfold prepare_auth
  by_cases ha : settings.has_option .AUTH = true
  · obtain ⟨A, hA⟩ := settings.get_auth_of_has ht ha
    obtain ⟨a, hga⟩ := get_auth_code A
    simp [ha, hA, hga, Value.get_uint, bind, Except.bind, pure, Except.pure]
  · simp [ha, pure, Except.pure]

/-- The variable `mode` on a well-typed store: the code of the mode that
`SSL_MODE` holds, else of `VERIFY_CA` with `SSL_CA`, else of `REQUIRED`. -/
theorem prepare_mode_ok (settings : Settings_impl) (ht : settings.well_typed = true) :
    ∃ M : Settings_impl.SSL_mode, prepare_mode settings = .ok M.code ∧
      (settings.has_option .SSL_MODE = true → settings.get .SSL_MODE = .ok (.uint M.code)) ∧
      (settings.has_option .SSL_MODE = false → settings.has_option .SSL_CA = true →
        M = .VERIFY_CA) ∧
      (settings.has_option .SSL_MODE = false → settings.has_option .SSL_CA = false →
        M = .REQUIRED) := by
  unfold prepare_mode
  by_cases hm : settings.has_option .SSL_MODE = true
  · obtain ⟨M, hM⟩ := settings.get_ssl_mode_of_has ht hm
    refine ⟨M, ?_, fun _ => hM, ?_, ?_⟩
    · cases M <;>
        simp [hm, hM, Value.get_uint, bind, Except.bind, pure, Except.pure, to_unsigned,
          Settings_impl.SSL_mode.code]
    · intro h; rw [hm] at h; exact absurd h (by decide)
    · intro h; rw [hm] at h; exact absurd h (by decide)
  · by_cases hc : settings.has_option .SSL_CA = true
    · refine ⟨.VERIFY_CA, ?_, fun h => absurd h hm, fun _ _ => rfl, ?_⟩
      · simp [hm, hc, pure, Except.pure]
      · intro _ h; rw [hc] at h; exact absurd h (by decide)
    · refine ⟨.REQUIRED, ?_, fun h => absurd h hm, ?_, fun _ _ => rfl⟩
      · simp [hm, hc, pure, Except.pure]
      · intro _ h; exact absurd h hc

/-- With TLS support compiled in, `prepare_options` succeeds on a well-typed
store with `USER`: the options carry a TLS policy with the mode of the same
name as the resolved one and no expected name, and without `AUTH` the method
is `PLAIN` exactly when `secure` was passed or the mode is not `DISABLED`. -/
theorem prepare_options_ssl (settings : Settings_impl) (secure : Bool)
    (hu : settings.has_option .USER = true) (ht : settings.well_typed = true) :
    ∃ (M : Settings_impl.SSL_mode) (opts : TCPIP_options) (tls : TLS_options),
      prepare_mode settings = .ok M.code ∧
      prepare_options true settings secure = .ok opts ∧
      opts.tls = some tls ∧ tls.ssl_mode = M.to_cdk ∧ tls.cn = none ∧
      (settings.has_option .AUTH = false →
        opts.auth_method = if (secure || decide (M ≠ .DISABLED)) then .PLAIN else .MYSQL41) := by
  obtain ⟨o, ho, _, _⟩ := prepare_basic_ok settings hu ht
  obtain ⟨M, hM, _, _, _⟩ := prepare_mode_ok settings ht
  by_cases hd : M = .DISABLED
  · subst hd
    obtain ⟨o1, ho1, htls, hauth⟩ := prepare_auth_ok settings secure
      { o with tls := some { ssl_mode := .DISABLED } } ht
    refine ⟨.DISABLED, o1, { ssl_mode := .DISABLED }, hM, ?_, htls, rfl, rfl, ?_⟩
    · simp [prepare_options, ho, hM, ho1, bind, Except.bind]
    · intro ha; simpa using hauth ha
  · have hcode : ¬ (Settings_impl.SSL_mode.DISABLED.code = M.code) := by
      cases M <;> simp [Settings_impl.SSL_mode.code] at hd ⊢
    have hget : get_ssl_mode M.code = .ok M.to_cdk := by cases M <;> rfl
    by_cases hc : settings.has_option .SSL_CA = true
    · obtain ⟨ca, hca⟩ := settings.get_string_of_has .SSL_CA ht hc (by simp)
      obtain ⟨o1, ho1, htls, hauth⟩ := prepare_auth_ok settings true
        { o with tls := some { ssl_mode := M.to_cdk, ca := some ca } } ht
      refine ⟨M, o1, { ssl_mode := M.to_cdk, ca := some ca }, hM, ?_, htls, rfl, rfl, ?_⟩
      · simp [prepare_options, ho, hM, hcode, hget, hc, hca, ho1, Value.get_string, bind,
          Except.bind, pure, Except.pure]
      · intro ha; simpa [hd] using hauth ha
    · obtain ⟨o1, ho1, htls, hauth⟩ := prepare_auth_ok settings true
        { o with tls := some { ssl_mode := M.to_cdk } } ht
      refine ⟨M, o1, { ssl_mode := M.to_cdk }, hM, ?_, htls, rfl, rfl, ?_⟩
      · simp [prepare_options, ho, hM, hcode, hget, hc, ho1, bind, Except.bind, pure,
          Except.pure]
      · intro ha; simpa [hd] using hauth ha

/-- In either build `prepare_options` succeeds on a well-typed store with
`USER`. -/
theorem prepare_options_ok (with_ssl : Bool) (settings : Settings_impl) (secure : Bool)
    (hu : settings.has_option .USER = true) (ht : settings.well_typed = true) :
    ∃ opts, prepare_options with_ssl settings secure = .ok opts := by
  cases with_ssl with
  | true =>
    obtain ⟨_, opts, _, _, h, _⟩ := prepare_options_ssl settings secure hu ht
    exact ⟨opts, h⟩
  | false =>
    obtain ⟨o, ho, _, _⟩ := prepare_basic_ok settings hu ht
    obtain ⟨M, hM, _, _, _⟩ := prepare_mode_ok settings ht
    by_cases hd : Settings_impl.SSL_mode.DISABLED.code = M.code
    · exact ⟨o, by simp [prepare_options, ho, hM, hd, bind, Except.bind, pure, Except.pure]⟩
    · obtain ⟨o1, ho1, _, _⟩ := prepare_auth_ok settings secure o ht
      exact ⟨o1, by simp [prepare_options, ho, hM, hd, ho1, bind, Except.bind]⟩

/-! ## Lemmas on the scan of a grouped store -/

theorem store_of_head (items : List Item) (v : Value) (rest : Settings_impl.iterator) :
    store_of items ≠ (.PORT, v) :: rest ∧ store_of items ≠ (.PRIORITY, v) :: rest := by
  cases items with
  | nil => simp [store_of]
  | cons i tl =>
    cases i with
    | host g => simp [store_of, Item.entries, Host_group.entries]
    | global o => cases o <;> simp [store_of, Item.entries, Global.entry]

theorem Settings_impl.add_host_port_other (it : Settings_impl.iterator)
    (h : ∀ v rest, it ≠ (.PORT, v) :: rest) :
    Settings_impl.add_host_port it = .ok (DEFAULT_MYSQLX_PORT, it) := by
  unfold Settings_impl.add_host_port
  split
  · exact absurd rfl (h _ _)
  · rfl

theorem Settings_impl.add_host_prio_missing (it : Settings_impl.iterator) (prio : Int)
    (hp : prio < 0) (h : ∀ v rest, it ≠ (.PRIORITY, v) :: rest) :
    Settings_impl.add_host_prio it prio =
      .error (.error "No priority specified for host ...") := by
  unfold Settings_impl.add_host_prio
  rw [if_pos (by omega)]
  split
  · exact absurd rfl (h _ _)
  · rfl

theorem Settings_impl.no_priority_here_other (it : Settings_impl.iterator)
    (h : ∀ v rest, it ≠ (.PRIORITY, v) :: rest) :
    Settings_impl.no_priority_here it = true := by
  unfold Settings_impl.no_priority_here
  split
  · exact absurd rfl (h _ _)
  · rfl

/-- The host and port blocks of `add_host` on the entries of a group. -/
theorem Settings_impl.add_host_port_group (g : Host_group) (it : Settings_impl.iterator)
    (h : ∀ v rest, g.priority_entries ++ it ≠ (.PORT, v) :: rest) :
    Settings_impl.add_host_port (g.port_entries ++ (g.priority_entries ++ it)) =
      .ok (g.ds.port, g.priority_entries ++ it) := by
  cases hp : g.port with
  | none =>
    simp only [Host_group.port_entries, hp, List.nil_append, Host_group.ds]
    exact Settings_impl.add_host_port_other _ h
  | some p =>
    simp [Host_group.port_entries, hp, Host_group.ds, Settings_impl.add_host_port,
      Value.get_uint]

theorem priority_entries_head (g : Host_group) (it : Settings_impl.iterator)
    (hit : ∀ v rest, it ≠ (.PORT, v) :: rest) (v : Value) (rest : Settings_impl.iterator) :
    g.priority_entries ++ it ≠ (.PORT, v) :: rest := by
  cases hq : g.priority with
  | none => simpa [Host_group.priority_entries, hq] using hit v rest
  | some q => simp [Host_group.priority_entries, hq]

theorem Settings_impl.add_host_name_group (self : Settings_impl) (g : Host_group)
    (it : Settings_impl.iterator) :
    self.add_host_name (g.entries ++ it) =
      .ok (g.host, g.port_entries ++ (g.priority_entries ++ it)) := by
  simp [Settings_impl.add_host_name, Host_group.entries, Value.get_string]

theorem int_to_ushort_of_range (p : Int) (h0 : 0 ≤ p) (h1 : p ≤ 100) :
    (int_to_ushort p : Int) = p := by
  unfold int_to_ushort
  rw [Int.emod_eq_of_lt h0 (by omega)]
  exact Int.toNat_of_nonneg h0

theorem to_int_of_small (q : Nat) (h : q ≤ 100) : to_int q = q := by
  unfold to_int
  have h1 : q % 4294967296 = q := Nat.mod_eq_of_lt (by omega)
  rw [h1, if_pos (by omega)]

theorem int_to_ushort_to_int (q : Nat) (h : q ≤ 100) : int_to_ushort (to_int q) = q := by
  rw [to_int_of_small q h]
  have h1 := int_to_ushort_of_range (q : Int) (by omega) (by omega)
  exact_mod_cast h1

/-- A group without `PRIORITY` met with a counter in `[0,100]`: the target is
added with the counter as priority and the cursor is behind the group. -/
theorem Settings_impl.add_host_group_auto (with_ssl : Bool) (self : Settings_impl)
    (g : Host_group) (it : Settings_impl.iterator) (prio : Int) (opts : TCPIP_options)
    (src : Multi_source)
    (hit : ∀ v rest, it ≠ (.PORT, v) :: rest ∧ it ≠ (.PRIORITY, v) :: rest)
    (h0 : 0 ≤ prio) (h1 : prio ≤ 100) (hq : g.priority = none) :
    self.add_host with_ssl (g.entries ++ it) prio opts src =
      .ok (it, Settings_impl.add_host_cn with_ssl opts g.host,
        src.add g.ds (Settings_impl.add_host_cn with_ssl opts g.host) (int_to_ushort prio)) := by
  have hport := Settings_impl.add_host_port_group g it
    (priority_entries_head g it (fun v rest => (hit v rest).1))
  have hpe : g.priority_entries = [] := by simp [Host_group.priority_entries, hq]
  rw [hpe] at hport
  simp only [List.nil_append] at hport
  have hnp := Settings_impl.no_priority_here_other it (fun v rest => (hit v rest).2)
  unfold Settings_impl.add_host
  rw [Settings_impl.add_host_name_group]
  simp only [hpe, List.nil_append, hport]
  have hprio : Settings_impl.add_host_prio it prio = .ok (prio, it) := by
    unfold Settings_impl.add_host_prio
    rw [if_neg (by omega)]
  simp only [hprio]
  rw [if_neg (by simp [h0, h1]), if_neg (by simp [hnp])]
  cases g; rfl

/-- A group with `PRIORITY q`, `q` in `[0,100]`, met with a negative counter:
the target is added with priority `q` and the cursor is behind the group. -/
theorem Settings_impl.add_host_group_explicit (with_ssl : Bool) (self : Settings_impl)
    (g : Host_group) (it : Settings_impl.iterator) (prio : Int) (opts : TCPIP_options)
    (src : Multi_source) (q : Nat)
    (hit : ∀ v rest, it ≠ (.PORT, v) :: rest ∧ it ≠ (.PRIORITY, v) :: rest)
    (hp : prio < 0) (hq : g.priority = some q) (hq1 : q ≤ 100) :
    self.add_host with_ssl (g.entries ++ it) prio opts src =
      .ok (it, Settings_impl.add_host_cn with_ssl opts g.host,
        src.add g.ds (Settings_impl.add_host_cn with_ssl opts g.host) q) := by
  have hport := Settings_impl.add_host_port_group g it
    (priority_entries_head g it (fun v rest => (hit v rest).1))
  have hpe : g.priority_entries = [(.PRIORITY, .uint q)] := by
    simp [Host_group.priority_entries, hq]
  rw [hpe] at hport
  have hnp := Settings_impl.no_priority_here_other it (fun v rest => (hit v rest).2)
  unfold Settings_impl.add_host
  rw [Settings_impl.add_host_name_group]
  simp only [hpe, hport]
  have hprio : Settings_impl.add_host_prio ([(.PRIORITY, .uint q)] ++ it) prio =
      .ok (to_int q, it) := by
    unfold Settings_impl.add_host_prio
    rw [if_pos (by omega)]
    simp [Value.get_uint]
  simp only [hprio]
  have hr : 0 ≤ to_int q ∧ to_int q ≤ 100 := by
    rw [to_int_of_small q hq1]; omega
  rw [if_neg (by simp [hr.1, hr.2]), if_neg (by simp [hnp]), int_to_ushort_to_int q hq1]
  cases g; rfl

/-- A group without `PRIORITY` met with a negative counter: the error is
thrown. -/
theorem Settings_impl.add_host_group_missing (with_ssl : Bool) (self : Settings_impl)
    (g : Host_group) (it : Settings_impl.iterator) (prio : Int) (opts : TCPIP_options)
    (src : Multi_source)
    (hit : ∀ v rest, it ≠ (.PORT, v) :: rest ∧ it ≠ (.PRIORITY, v) :: rest)
    (hp : prio < 0) (hq : g.priority = none) :
    self.add_host with_ssl (g.entries ++ it) prio opts src =
      .error (.error "No priority specified for host ...") := by
  have hport := Settings_impl.add_host_port_group g it
    (priority_entries_head g it (fun v rest => (hit v rest).1))
  have hpe : g.priority_entries = [] := by simp [Host_group.priority_entries, hq]
  rw [hpe] at hport
  simp only [List.nil_append] at hport
  unfold Settings_impl.add_host
  rw [Settings_impl.add_host_name_group]
  simp only [hpe, List.nil_append, hport]
  rw [Settings_impl.add_host_prio_missing it prio hp (fun v rest => (hit v rest).2)]

theorem Settings_impl.scan_global (with_ssl : Bool) (self : Settings_impl) (fuel : Nat)
    (o : Global) (it : Settings_impl.iterator) (prio : Int) (opts : TCPIP_options)
    (src : Multi_source) :
    Settings_impl.scan with_ssl self (fuel + 1) (o.entry :: it) prio opts src =
      Settings_impl.scan with_ssl self fuel it prio opts src := by
  cases o <;> rfl

theorem Settings_impl.scan_host (with_ssl : Bool) (self : Settings_impl) (fuel : Nat)
    (g : Host_group) (it : Settings_impl.iterator) (prio : Int) (opts : TCPIP_options)
    (src : Multi_source) :
    Settings_impl.scan with_ssl self (fuel + 1) (g.entries ++ it) prio opts src =
      match self.add_host with_ssl (g.entries ++ it) prio opts src with
      | .error e => (.error e, src)
      | .ok (it1, opts1, src1) =>
        Settings_impl.scan with_ssl self fuel it1 (prio - 1) opts1 src1 := by
  rfl

/-- Setting the expected name twice keeps the second name. -/
theorem Settings_impl.add_host_cn_twice (with_ssl : Bool) (opts : TCPIP_options)
    (h1 h2 : String) :
    Settings_impl.add_host_cn with_ssl (Settings_impl.add_host_cn with_ssl opts h1) h2 =
      Settings_impl.add_host_cn with_ssl opts h2 := by
  unfold Settings_impl.add_host_cn
  cases with_ssl with
  | false => simp
  | true =>
    cases ht : opts.tls with
    | none => simp [ht]
    | some tls =>
      by_cases hm : tls.ssl_mode = .VERIFY_IDENTITY
      · simp [ht, hm]
      · simp [ht, hm]

theorem auto_targets_cn (with_ssl : Bool) (opts : TCPIP_options) (h : String) (p : Int)
    (gs : List Host_group) :
    auto_targets with_ssl (Settings_impl.add_host_cn with_ssl opts h) p gs =
      auto_targets with_ssl opts p gs := by
  induction gs generalizing p with
  | nil => rfl
  | cons g rest ih =>
    simp [auto_targets, Host_group.target, Settings_impl.add_host_cn_twice, ih]

theorem explicit_targets_cn (with_ssl : Bool) (opts : TCPIP_options) (h : String)
    (gs : List Host_group) :
    explicit_targets with_ssl (Settings_impl.add_host_cn with_ssl opts h) gs =
      explicit_targets with_ssl opts gs := by
  simp [explicit_targets, Host_group.target, Settings_impl.add_host_cn_twice]

/-- The scan of a grouped store without `PRIORITY` entries, started with a
counter that covers all its groups: every group is added, with the counter
value reached at it. -/
theorem Settings_impl.scan_auto (with_ssl : Bool) (self : Settings_impl) :
    ∀ (items : List Item) (fuel : Nat) (prio : Int) (opts : TCPIP_options)
      (src : Multi_source),
      items.length ≤ fuel →
      (∀ g ∈ groups_of items, g.priority = none) →
      ((groups_of items).length : Int) ≤ prio + 1 → prio ≤ 100 →
      Settings_impl.scan with_ssl self fuel (store_of items) prio opts src =
        (.ok (), ⟨src.targets ++ auto_targets with_ssl opts prio (groups_of items)⟩) := by
  intro items
  induction items with
  | nil =>
    intro fuel prio opts src _ _ _ _
    cases fuel <;> simp [store_of, groups_of, auto_targets, Settings_impl.scan]
  | cons i rest ih =>
    intro fuel prio opts src hf hnone hlen h100
    cases fuel with
    | zero => simp at hf
    | succ fuel =>
      have hf1 : rest.length ≤ fuel := by simpa using hf
      cases i with
      | global o =>
        simp only [store_of, Item.entries, List.singleton_append, groups_of] at *
        rw [Settings_impl.scan_global]
        exact ih fuel prio opts src hf1 hnone hlen h100
      | host g =>
        simp only [store_of, Item.entries, groups_of, List.length_cons, List.mem_cons,
          forall_eq_or_imp] at *
        have h0 : 0 ≤ prio := by push_cast at hlen; omega
        rw [Settings_impl.scan_host,
          Settings_impl.add_host_group_auto with_ssl self g (store_of rest) prio opts src
            (store_of_head rest) h0 h100 hnone.1]
        simp only
        rw [ih fuel (prio - 1) _ _ hf1 hnone.2 (by push_cast at hlen; omega) (by omega)]
        simp [auto_targets, auto_targets_cn, Multi_source.add, Host_group.target]

/-- The scan of a grouped store without `PRIORITY` entries that has more groups
than the counter covers: the group met with counter `-1` raises the error. -/
theorem Settings_impl.scan_auto_exhausted (with_ssl : Bool) (self : Settings_impl) :
    ∀ (items : List Item) (fuel : Nat) (prio : Int) (opts : TCPIP_options)
      (src : Multi_source),
      items.length ≤ fuel →
      (∀ g ∈ groups_of items, g.priority = none) →
      prio + 1 < ((groups_of items).length : Int) → -1 ≤ prio → prio ≤ 100 →
      (Settings_impl.scan with_ssl self fuel (store_of items) prio opts src).1 =
        .error (.error "No priority specified for host ...") := by
  intro items
  induction items with
  | nil =>
    intro fuel prio opts src _ _ hlen hm _
    simp [groups_of] at hlen
    omega
  | cons i rest ih =>
    intro fuel prio opts src hf hnone hlen hm h100
    cases fuel with
    | zero => simp at hf
    | succ fuel =>
      have hf1 : rest.length ≤ fuel := by simpa using hf
      cases i with
      | global o =>
        simp only [store_of, Item.entries, List.singleton_append, groups_of] at *
        rw [Settings_impl.scan_global]
        exact ih fuel prio opts src hf1 hnone hlen hm h100
      | host g =>
        simp only [store_of, Item.entries, groups_of, List.length_cons, List.mem_cons,
          forall_eq_or_imp] at *
        rw [Settings_impl.scan_host]
        by_cases h0 : 0 ≤ prio
        · rw [Settings_impl.add_host_group_auto with_ssl self g (store_of rest) prio opts src
            (store_of_head rest) h0 h100 hnone.1]
          simp only
          exact ih fuel (prio - 1) _ _ hf1 hnone.2 (by push_cast at hlen; omega) (by omega)
            (by omega)
        · rw [Settings_impl.add_host_group_missing with_ssl self g (store_of rest) prio opts
            src (store_of_head rest) (by omega) hnone.1]

/-- The scan of a grouped store whose groups all have a `PRIORITY` in
`[0,100]`, started with a negative counter: every group is added with its own
priority. -/
theorem Settings_impl.scan_explicit (with_ssl : Bool) (self : Settings_impl) :
    ∀ (items : List Item) (fuel : Nat) (prio : Int) (opts : TCPIP_options)
      (src : Multi_source),
      items.length ≤ fuel → prio < 0 →
      (∀ g ∈ groups_of items, ∃ q, g.priority = some q ∧ q ≤ 100) →
      Settings_impl.scan with_ssl self fuel (store_of items) prio opts src =
        (.ok (), ⟨src.targets ++ explicit_targets with_ssl opts (groups_of items)⟩) := by
  intro items
  induction items with
  | nil =>
    intro fuel prio opts src _ _ _
    cases fuel <;> simp [store_of, groups_of, explicit_targets, Settings_impl.scan]
  | cons i rest ih =>
    intro fuel prio opts src hf hp hall
    cases fuel with
    | zero => simp at hf
    | succ fuel =>
      have hf1 : rest.length ≤ fuel := by simpa using hf
      cases i with
      | global o =>
        simp only [store_of, Item.entries, List.singleton_append, groups_of] at *
        rw [Settings_impl.scan_global]
        exact ih fuel prio opts src hf1 hp hall
      | host g =>
        simp only [store_of, Item.entries, groups_of, List.mem_cons, forall_eq_or_imp] at *
        obtain ⟨⟨q, hq, hq1⟩, hrest⟩ := hall
        rw [Settings_impl.scan_host,
          Settings_impl.add_host_group_explicit with_ssl self g (store_of rest) prio opts src q
            (store_of_head rest) hp hq hq1]
        simp only
        rw [ih fuel (prio - 1) _ _ hf1 (by omega) hrest, explicit_targets_cn]
        simp [explicit_targets, Multi_source.add, Host_group.target, hq]

/-- The scan of a grouped store with valid priorities in which some group has
no `PRIORITY`, started with a negative counter: the first such group raises
the error. -/
theorem Settings_impl.scan_explicit_missing (with_ssl : Bool) (self : Settings_impl) :
    ∀ (items : List Item) (fuel : Nat) (prio : Int) (opts : TCPIP_options)
      (src : Multi_source),
      items.length ≤ fuel → prio < 0 →
      (∀ g ∈ groups_of items, ∀ q, g.priority = some q → q ≤ 100) →
      (∃ g ∈ groups_of items, g.priority = none) →
      (Settings_impl.scan with_ssl self fuel (store_of items) prio opts src).1 =
        .error (.error "No priority specified for host ...") := by
  intro items
  induction items with
  | nil =>
    intro fuel prio opts src _ _ _ hex
    simp [groups_of] at hex
  | cons i rest ih =>
    intro fuel prio opts src hf hp hall hex
    cases fuel with
    | zero => simp at hf
    | succ fuel =>
      have hf1 : rest.length ≤ fuel := by simpa using hf
      cases i with
      | global o =>
        simp only [store_of, Item.entries, List.singleton_append, groups_of] at *
        rw [Settings_impl.scan_global]
        exact ih fuel prio opts src hf1 hp hall hex
      | host g =>
        simp only [store_of, Item.entries, groups_of, List.mem_cons, forall_eq_or_imp,
          exists_eq_or_imp] at *
        rw [Settings_impl.scan_host]
        cases hq : g.priority with
        | none =>
          rw [Settings_impl.add_host_group_missing with_ssl self g (store_of rest) prio opts
            src (store_of_head rest) hp hq]
        | some q =>
          rw [Settings_impl.add_host_group_explicit with_ssl self g (store_of rest) prio opts
            src q (store_of_head rest) hp hq (hall.1 q hq)]
          simp only
          have hex1 : ∃ g ∈ groups_of rest, g.priority = none := by
            rcases hex with h | h
            · rw [hq] at h; exact absurd h (by simp)
            · exact h
          exact ih fuel (prio - 1) _ _ hf1 (by omega) hall.2 hex1

/-! ## The loop bound is never reached -/

/-- When `add_host` returns, the cursor has moved forward by at least one and
at most three entries. -/
theorem Settings_impl.add_host_advances (with_ssl : Bool) (self : Settings_impl)
    (it it1 : Settings_impl.iterator) (prio : Int) (opts opts1 : TCPIP_options)
    (src src1 : Multi_source)
    (h : self.add_host with_ssl it prio opts src = .ok (it1, opts1, src1)) :
    it1.length < it.length ∧ it.length ≤ it1.length + 3 := by
  unfold Settings_impl.add_host at h
  cases hn : self.add_host_name it with
  | error e => simp [hn] at h
  | ok r1 =>
    obtain ⟨host, i1⟩ := r1
    simp only [hn] at h
    cases hp : Settings_impl.add_host_port i1 with
    | error e => simp [hp] at h
    | ok r2 =>
      obtain ⟨port, i2⟩ := r2
      simp only [hp] at h
      cases hq : Settings_impl.add_host_prio i2 prio with
      | error e => simp [hq] at h
      | ok r3 =>
        obtain ⟨prio1, i3⟩ := r3
        simp only [hq] at h
        split at h
        · simp at h
        · split at h
          · simp at h
          · simp only [Except.ok.injEq, Prod.mk.injEq] at h
            obtain ⟨hi, _, _⟩ := h
            subst hi
            -- the three blocks, one after the other
            have h3 : i3.length ≤ i2.length ∧ i2.length ≤ i3.length + 1 := by
              unfold Settings_impl.add_host_prio at hq
              split at hq
              · split at hq
                · split at hq
                  · simp only [Except.ok.injEq, Prod.mk.injEq] at hq
                    rw [← hq.2]; simp
                  · simp at hq
                · simp at hq
              · simp only [Except.ok.injEq, Prod.mk.injEq] at hq
                rw [← hq.2]; simp
            have h2 : i2.length ≤ i1.length ∧ i1.length ≤ i2.length + 1 ∧
                ((∃ v rest, i1 = (.PORT, v) :: rest) → i2.length < i1.length) := by
              unfold Settings_impl.add_host_port at hp
              split at hp
              · split at hp
                · simp only [Except.ok.injEq, Prod.mk.injEq] at hp
                  rw [← hp.2]; simp
                · simp at hp
              · rename_i hne
                simp only [Except.ok.injEq, Prod.mk.injEq] at hp
                rw [← hp.2]
                refine ⟨le_refl _, by omega, ?_⟩
                rintro ⟨v, rest, hv⟩
                exact absurd hv (hne v rest)
            have h1 : (i1.length < it.length ∧ it.length ≤ i1.length + 1) ∨
                (i1 = it ∧ ∃ v rest, i1 = (.PORT, v) :: rest) := by
              unfold Settings_impl.add_host_name at hn
              split at hn
              · simp at hn
              · rename_i k v rest
                split at hn
                · rename_i hk
                  split at hn
                  · simp only [Except.ok.injEq, Prod.mk.injEq] at hn
                    right
                    exact ⟨hn.2.symm, v, rest, by rw [← hn.2, hk]⟩
                  · simp at hn
                · split at hn
                  · split at hn
                    · simp only [Except.ok.injEq, Prod.mk.injEq] at hn
                      left
                      rw [← hn.2]; simp
                    · simp at hn
                  · simp at hn
            rcases h1 with h1 | ⟨h1, hport⟩
            · omega
            · have := h2.2.2 hport
              rw [h1] at h2 this
              omega

theorem Value.get_string_error (v : Value) (e : Failure) (h : v.get_string = .error e) :
    e ≠ .out_of_fuel := by
  cases v <;> simp [Value.get_string] at h
  subst h
  simp

theorem Value.get_uint_error (v : Value) (e : Failure) (h : v.get_uint = .error e) :
    e ≠ .out_of_fuel := by
  cases v <;> simp [Value.get_uint] at h
  subst h
  simp

/-- A failure of `add_host` is a thrown error or a failed assertion. -/
theorem Settings_impl.add_host_error (with_ssl : Bool) (self : Settings_impl)
    (it : Settings_impl.iterator) (prio : Int) (opts : TCPIP_options) (src : Multi_source)
    (e : Failure) (h : self.add_host with_ssl it prio opts src = .error e) :
    e ≠ .out_of_fuel := by
  unfold Settings_impl.add_host at h
  cases hn : self.add_host_name it with
  | error e1 =>
    simp only [hn, Except.error.injEq] at h
    subst h
    unfold Settings_impl.add_host_name at hn
    split at hn
    · simp only [Except.error.injEq] at hn; subst hn; simp
    · split at hn
      · split at hn
        · simp at hn
        · simp only [Except.error.injEq] at hn; subst hn; simp
      · split at hn
        · split at hn
          · simp at hn
          · rename_i hs
            simp only [Except.error.injEq] at hn
            subst hn
            exact Value.get_string_error _ _ hs
        · simp only [Except.error.injEq] at hn; subst hn; simp
  | ok r1 =>
    obtain ⟨host, i1⟩ := r1
    simp only [hn] at h
    cases hp : Settings_impl.add_host_port i1 with
    | error e1 =>
      simp only [hp, Except.error.injEq] at h
      subst h
      unfold Settings_impl.add_host_port at hp
      split at hp
      · split at hp
        · simp at hp
        · rename_i hs
          simp only [Except.error.injEq] at hp
          subst hp
          exact Value.get_uint_error _ _ hs
      · simp at hp
    | ok r2 =>
      obtain ⟨port, i2⟩ := r2
      simp only [hp] at h
      cases hq : Settings_impl.add_host_prio i2 prio with
      | error e1 =>
        simp only [hq, Except.error.injEq] at h
        subst h
        unfold Settings_impl.add_host_prio at hq
        split at hq
        · split at hq
          · split at hq
            · simp at hq
            · rename_i hs
              simp only [Except.error.injEq] at hq
              subst hq
              exact Value.get_uint_error _ _ hs
          · simp only [Except.error.injEq] at hq; subst hq; simp
        · simp at hq
      | ok r3 =>
        obtain ⟨prio1, i3⟩ := r3
        simp only [hq] at h
        split at h
        · simp only [Except.error.injEq] at h; subst h; simp
        · split at h
          · simp only [Except.error.injEq] at h; subst h; simp
          · simp at h

/-- With as many iterations as the cursor has entries left, the scan loop
ends by itself: by reaching the end of the store or by a failure of the
program, never by the bound of the model. -/
theorem Settings_impl.scan_fuel_enough (with_ssl : Bool) (self : Settings_impl) :
    ∀ (fuel : Nat) (it : Settings_impl.iterator) (prio : Int) (opts : TCPIP_options)
      (src : Multi_source), it.length ≤ fuel →
      (Settings_impl.scan with_ssl self fuel it prio opts src).1 ≠ .error .out_of_fuel := by
  intro fuel
  induction fuel with
  | zero =>
    intro it prio opts src hlen
    cases it with
    | nil => simp [Settings_impl.scan]
    | cons e rest => simp at hlen
  | succ fuel ih =>
    intro it prio opts src hlen
    cases it with
    | nil => simp [Settings_impl.scan]
    | cons e rest =>
      obtain ⟨k, v⟩ := e
      have hrest : rest.length ≤ fuel := by simpa using hlen
      have hhost : ∀ k1, (match self.add_host with_ssl ((k1, v) :: rest) prio opts src with
          | .error e => ((.error e : Except Failure Unit), src)
          | .ok (it1, opts1, src1) =>
            Settings_impl.scan with_ssl self fuel it1 (prio - 1) opts1 src1).1 ≠
          .error .out_of_fuel := by
        intro k1
        cases hadd : self.add_host with_ssl ((k1, v) :: rest) prio opts src with
        | error e =>
          simp only [ne_eq, Except.error.injEq]
          exact self.add_host_error with_ssl _ _ _ _ e hadd
        | ok res =>
          obtain ⟨it1, opts1, src2⟩ := res
          simp only
          have := (self.add_host_advances with_ssl _ _ _ _ _ _ _ hadd).1
          exact ih it1 (prio - 1) opts1 src2 (by simp at this; omega)
      cases k
      case HOST =>
        simp only [Settings_impl.scan]
        exact hhost .HOST
      case PORT =>
        simp only [Settings_impl.scan]
        split
        · exact hhost .PORT
        · simp
      case SOCKET =>
        simp [Settings_impl.scan, Settings_impl.add_socket]
      all_goals
        simp only [Settings_impl.scan]
        exact ih rest prio opts src hrest

/-! ## Lemmas on grouped stores -/

theorem store_of_length (items : List Item) : items.length ≤ (store_of items).length := by
  induction items with
  | nil => simp [store_of]
  | cons i rest ih =>
    cases i with
    | host g => simp [store_of, Item.entries, Host_group.entries]; omega
    | global o => simp [store_of, Item.entries]; omega

theorem store_of_entry_ok (items : List Item) :
    ∀ e ∈ store_of items, Settings_impl.entry_ok e = true := by
  induction items with
  | nil => simp [store_of]
  | cons i rest ih =>
    intro e he
    simp only [store_of, List.mem_append] at he
    rcases he with he | he
    · cases i with
      | host g =>
        simp only [Item.entries, Host_group.entries, Host_group.port_entries,
          Host_group.priority_entries, List.mem_cons, List.mem_append] at he
        rcases he with rfl | he | he
        · rfl
        · cases hp : g.port <;> simp [hp] at he
          subst he; rfl
        · cases hq : g.priority <;> simp [hq] at he
          subst he; rfl
      | global o =>
        simp only [Item.entries, List.mem_singleton] at he
        subst he
        cases o with
        | SSL_MODE m => cases m <;> rfl
        | AUTH a => cases a <;> rfl
        | _ => rfl
    · exact ih e he

theorem settings_of_well_typed (items : List Item) (host_cnt : Nat)
    (user_priorities sock : Bool) :
    (settings_of items host_cnt user_priorities sock).well_typed = true := by
  unfold Settings_impl.well_typed settings_of
  rw [List.all_eq_true]
  exact store_of_entry_ok items

theorem store_of_mem_global (items : List Item) (o : Global) (h : Item.global o ∈ items) :
    o.entry ∈ store_of items := by
  induction items with
  | nil => simp at h
  | cons i rest ih =>
    simp only [List.mem_cons] at h
    simp only [store_of, List.mem_append]
    rcases h with h | h
    · subst h; left; simp [Item.entries]
    · right; exact ih h

theorem settings_of_has_user (items : List Item) (host_cnt : Nat)
    (user_priorities sock : Bool) (h : ∃ u, Item.global (.USER u) ∈ items) :
    (settings_of items host_cnt user_priorities sock).has_option .USER = true := by
  obtain ⟨u, hu⟩ := h
  unfold Settings_impl.has_option settings_of
  rw [List.any_eq_true]
  exact ⟨_, store_of_mem_global items _ hu, by simp [Global.entry]⟩

/-- On a grouped store with `USER`, `get_data_source` prepares the options,
clears the connector and runs the scan from the first entry. -/
theorem Settings_impl.get_data_source_grouped (with_ssl : Bool) (items : List Item)
    (host_cnt : Nat) (user_priorities sock : Bool) (src : Multi_source)
    (hu : (settings_of items host_cnt user_priorities sock).has_option .USER = true) :
    ∃ opts fuel, items.length ≤ fuel ∧
      (settings_of items host_cnt user_priorities sock).get_data_source with_ssl src =
        match Settings_impl.scan with_ssl (settings_of items host_cnt user_priorities sock)
          fuel (store_of items) (if user_priorities then -1 else 100) opts ⟨[]⟩ with
        | (.error e, src1) => (.error e, src1)
        | (.ok _, src1) =>
          if 0 < src1.size then (.ok (), src1) else (.error .assertion, src1) := by
  obtain ⟨opts, ho⟩ := prepare_options_ok with_ssl
    (settings_of items host_cnt user_priorities sock) (sock && (1 == host_cnt)) hu
    (settings_of_well_typed items host_cnt user_priorities sock)
  refine ⟨opts, (store_of items).length, store_of_length items, ?_⟩
  unfold Settings_impl.get_data_source
  simp only [settings_of] at ho ⊢
  rw [ho]
  rfl

theorem auto_targets_length (with_ssl : Bool) (opts : TCPIP_options) (p : Int)
    (gs : List Host_group) : (auto_targets with_ssl opts p gs).length = gs.length := by
  induction gs generalizing p with
  | nil => rfl
  | cons g rest ih => simp [auto_targets, ih]

theorem auto_targets_ds (with_ssl : Bool) (opts : TCPIP_options) (p : Int)
    (gs : List Host_group) :
    (auto_targets with_ssl opts p gs).map Target.ds = gs.map Host_group.ds := by
  induction gs generalizing p with
  | nil => rfl
  | cons g rest ih => simp [auto_targets, Host_group.target, ih]

theorem auto_targets_prio (with_ssl : Bool) (opts : TCPIP_options) :
    ∀ (gs : List Host_group) (p : Int) (i : Nat)
      (h : i < (auto_targets with_ssl opts p gs).length),
      ((auto_targets with_ssl opts p gs).get ⟨i, h⟩).prio = int_to_ushort (p - i) := by
  intro gs
  induction gs with
  | nil => intro p i h; simp [auto_targets] at h
  | cons g rest ih =>
    intro p i h
    cases i with
    | zero => simp [auto_targets, Host_group.target]
    | succ i =>
      simp only [auto_targets, List.get_cons_succ]
      rw [ih (p - 1) i]
      congr 1
      push_cast
      omega

theorem int_to_ushort_hundred (i : Nat) (h : i ≤ 100) : int_to_ushort (100 - (i : Int)) = 100 - i := by
  have h1 := int_to_ushort_of_range (100 - (i : Int)) (by omega) (by omega)
  omega

theorem auto_targets_prio_hundred (with_ssl : Bool) (opts : TCPIP_options)
    (gs : List Host_group) (hmax : gs.length ≤ 101) (i : Nat)
    (h : i < (auto_targets with_ssl opts 100 gs).length) :
    ((auto_targets with_ssl opts 100 gs).get ⟨i, h⟩).prio = 100 - i := by
  rw [auto_targets_prio]
  have hi : i ≤ 100 := by rw [auto_targets_length] at h; omega
  exact int_to_ushort_hundred i hi

theorem auto_targets_pairwise (with_ssl : Bool) (opts : TCPIP_options)
    (gs : List Host_group) (hmax : gs.length ≤ 101) :
    (auto_targets with_ssl opts 100 gs).Pairwise (fun a b => a.prio > b.prio) := by
  rw [List.pairwise_iff_get]
  intro i j hij
  rw [auto_targets_prio_hundred with_ssl opts gs hmax i.1 i.2,
    auto_targets_prio_hundred with_ssl opts gs hmax j.1 j.2]
  have hj : j.1 < gs.length := lt_of_lt_of_eq j.2 (auto_targets_length with_ssl opts 100 gs)
  have hi : i.1 < j.1 := hij
  show 100 - i.1 > 100 - j.1
  omega

theorem explicit_targets_prio (with_ssl : Bool) (opts : TCPIP_options)
    (gs : List Host_group) (hall : ∀ g ∈ gs, ∃ q, g.priority = some q ∧ q ≤ 100) :
    (explicit_targets with_ssl opts gs).map (fun t => some t.prio) =
      gs.map Host_group.priority := by
  simp only [explicit_targets, List.map_map]
  apply List.map_congr_left
  intro g hg
  obtain ⟨q, hq, _⟩ := hall g hg
  simp [Host_group.target, hq]

theorem explicit_targets_ds (with_ssl : Bool) (opts : TCPIP_options)
    (gs : List Host_group) :
    (explicit_targets with_ssl opts gs).map Target.ds = gs.map Host_group.ds := by
  simp only [explicit_targets, List.map_map]
  apply List.map_congr_left
  intro g _
  rfl

/-! ## The claims -/

/-- C1 (amended): for every grouped option store with a `USER` entry, at least
one and at most 101 `HOST` groups (each optionally with its `PORT`), no
`PRIORITY` entry and the user-priorities flag unset, `get_data_source`
succeeds, the targets are the groups in store order, and the `i`-th target
added has priority `100 - i`, so the priorities are strictly decreasing from
100 in store order. -/
theorem C1_auto_priorities (with_ssl : Bool) (items : List Item) (host_cnt : Nat)
    (sock : Bool) (src : Multi_source)
    (huser : ∃ u, Item.global (.USER u) ∈ items)
    (hgroups : 1 ≤ (groups_of items).length)
    (hmax : (groups_of items).length ≤ 101)
    (hnone : ∀ g ∈ groups_of items, g.priority = none) :
    ∃ src1, (settings_of items host_cnt false sock).get_data_source with_ssl src =
        (.ok (), src1) ∧
      src1.targets.map Target.ds = (groups_of items).map Host_group.ds ∧
      (∀ (i : Nat) (h : i < src1.targets.length), (src1.targets.get ⟨i, h⟩).prio = 100 - i) ∧
      src1.targets.Pairwise (fun a b => a.prio > b.prio) := by
  obtain ⟨opts, fuel, hfuel, hrun⟩ := Settings_impl.get_data_source_grouped with_ssl items
    host_cnt false sock src (settings_of_has_user items host_cnt false sock huser)
  have hscan := Settings_impl.scan_auto with_ssl (settings_of items host_cnt false sock) items
    fuel 100 opts ⟨[]⟩ hfuel hnone (by push_cast; omega) (by omega)
  simp only [Bool.false_eq_true, if_false] at hrun
  rw [hscan] at hrun
  simp only [List.nil_append, Multi_source.size, auto_targets_length] at hrun
  rw [if_pos (by omega)] at hrun
  exact ⟨_, hrun, auto_targets_ds _ _ _ _,
    auto_targets_prio_hundred with_ssl opts (groups_of items) hmax,
    auto_targets_pairwise with_ssl opts (groups_of items) hmax⟩

/-- Witness of C1 on the store `HOST a, PORT 33060, HOST b, PORT 33061, USER u`. -/
theorem C1_auto_priorities_witness :
    (∃ u, Item.global (.USER u) ∈ two_hosts) ∧ 1 ≤ (groups_of two_hosts).length ∧
    (groups_of two_hosts).length ≤ 101 ∧ (∀ g ∈ groups_of two_hosts, g.priority = none) ∧
    ∃ src1, (settings_of two_hosts 2 false false).get_data_source true ⟨[]⟩ = (.ok (), src1) ∧
      src1.targets.map Target.ds = (groups_of two_hosts).map Host_group.ds ∧
      (∀ (i : Nat) (h : i < src1.targets.length), (src1.targets.get ⟨i, h⟩).prio = 100 - i) ∧
      src1.targets.Pairwise (fun a b => a.prio > b.prio) :=
  ⟨⟨"u", by decide⟩, by decide, by decide, by decide,
    C1_auto_priorities true two_hosts 2 false ⟨[]⟩ ⟨"u", by decide⟩ (by decide) (by decide)
      (by decide)⟩

/-- C1 as stated fails: a store of 102 `HOST` groups and a `USER` entry, with no
`PRIORITY` entry and the flag unset, is refused at its 102nd group. -/
theorem C1_counterexample :
    (groups_of hosts_102).length = 102 ∧
    ((settings_of hosts_102 102 false false).get_data_source true ⟨[]⟩).1 =
      .error (.error "No priority specified for host ...") :=
  ⟨rfl, rfl⟩

/-- C2: for every grouped option store with a `USER` entry in which every
`HOST` group has (after its optional `PORT`) a `PRIORITY` entry with a value
in `[0,100]`, with the user-priorities flag set (so that there is such a
group), `get_data_source` succeeds and the priorities passed to the connector
are the supplied `PRIORITY` values, element by element in store order. -/
theorem C2_explicit_priorities (with_ssl : Bool) (items : List Item) (host_cnt : Nat)
    (sock : Bool) (src : Multi_source)
    (huser : ∃ u, Item.global (.USER u) ∈ items)
    (hgroups : 1 ≤ (groups_of items).length)
    (hall : ∀ g ∈ groups_of items, ∃ q, g.priority = some q ∧ q ≤ 100) :
    ∃ src1, (settings_of items host_cnt true sock).get_data_source with_ssl src =
        (.ok (), src1) ∧
      src1.targets.map (fun t => some t.prio) = (groups_of items).map Host_group.priority ∧
      src1.targets.map Target.ds = (groups_of items).map Host_group.ds := by
  obtain ⟨opts, fuel, hfuel, hrun⟩ := Settings_impl.get_data_source_grouped with_ssl items
    host_cnt true sock src (settings_of_has_user items host_cnt true sock huser)
  have hscan := Settings_impl.scan_explicit with_ssl (settings_of items host_cnt true sock)
    items fuel (-1) opts ⟨[]⟩ hfuel (by omega) hall
  simp only [if_true] at hrun
  rw [hscan] at hrun
  have hlen : (explicit_targets with_ssl opts (groups_of items)).length =
      (groups_of items).length := by simp [explicit_targets]
  simp only [List.nil_append, Multi_source.size, hlen] at hrun
  rw [if_pos (by omega)] at hrun
  exact ⟨_, hrun, explicit_targets_prio with_ssl opts _ hall, explicit_targets_ds with_ssl opts _⟩

/-- Witness of C2 on the store `HOST a, PRIORITY 1, HOST b, PORT 33061,
PRIORITY 2, USER u`. -/
theorem C2_explicit_priorities_witness :
    (∃ u, Item.global (.USER u) ∈ ascending_priorities) ∧
    1 ≤ (groups_of ascending_priorities).length ∧
    (∀ g ∈ groups_of ascending_priorities, ∃ q, g.priority = some q ∧ q ≤ 100) ∧
    ∃ src1, (settings_of ascending_priorities 2 true false).get_data_source true ⟨[]⟩ =
        (.ok (), src1) ∧
      src1.targets.map (fun t => some t.prio) =
        (groups_of ascending_priorities).map Host_group.priority ∧
      src1.targets.map Target.ds = (groups_of ascending_priorities).map Host_group.ds :=
  have hall : ∀ g ∈ groups_of ascending_priorities, ∃ q, g.priority = some q ∧ q ≤ 100 := by
    simp [groups_of, ascending_priorities]
  ⟨⟨"u", by decide⟩, by decide, hall,
    C2_explicit_priorities true ascending_priorities 2 false ⟨[]⟩ ⟨"u", by decide⟩
      (by decide) hall⟩

/-- C3: for every grouped option store with a `USER` entry and valid `PRIORITY`
values that has a `HOST` group without `PRIORITY` (next to any number of
groups with one, before or after it), with the user-priorities flag set,
`get_data_source` fails with the thrown error whose message is
"No priority specified for host ...". -/
theorem C3_mixed_priorities_fail (with_ssl : Bool) (items : List Item) (host_cnt : Nat)
    (sock : Bool) (src : Multi_source)
    (huser : ∃ u, Item.global (.USER u) ∈ items)
    (hvalid : ∀ g ∈ groups_of items, ∀ q, g.priority = some q → q ≤ 100)
    (hwith : ∃ g ∈ groups_of items, g.priority ≠ none)
    (hwithout : ∃ g ∈ groups_of items, g.priority = none) :
    ((settings_of items host_cnt true sock).get_data_source with_ssl src).1 =
      .error (.error "No priority specified for host ...") := by
  obtain ⟨opts, fuel, hfuel, hrun⟩ := Settings_impl.get_data_source_grouped with_ssl items
    host_cnt true sock src (settings_of_has_user items host_cnt true sock huser)
  have hscan := Settings_impl.scan_explicit_missing with_ssl
    (settings_of items host_cnt true sock) items fuel (-1) opts ⟨[]⟩ hfuel (by omega) hvalid
    hwithout
  have _ := hwith
  simp only [if_true] at hrun
  rw [hrun]
  generalize Settings_impl.scan with_ssl (settings_of items host_cnt true sock) fuel
    (store_of items) (-1) opts ⟨[]⟩ = r at hscan
  obtain ⟨r1, r2⟩ := r
  simp only at hscan
  subst hscan
  rfl

/-- Witness of C3 in both orders: the group with a priority first, and the
group without one first. -/
theorem C3_mixed_priorities_fail_witness :
    ((settings_of priority_then_none 2 true false).get_data_source true ⟨[]⟩).1 =
      .error (.error "No priority specified for host ...") ∧
    ((settings_of none_then_priority 2 true false).get_data_source true ⟨[]⟩).1 =
      .error (.error "No priority specified for host ...") :=
  ⟨C3_mixed_priorities_fail true priority_then_none 2 false ⟨[]⟩ ⟨"u", by decide⟩
      (by simp [groups_of, priority_then_none]) (by simp [groups_of, priority_then_none])
      (by simp [groups_of, priority_then_none]),
    C3_mixed_priorities_fail true none_then_priority 2 false ⟨[]⟩ ⟨"u", by decide⟩
      (by simp [groups_of, none_then_priority]) (by simp [groups_of, none_then_priority])
      (by simp [groups_of, none_then_priority])⟩

theorem Settings_impl.SSL_mode.code_injective (M N : Settings_impl.SSL_mode)
    (h : M.code = N.code) : M = N := by
  cases M <;> cases N <;> simp [Settings_impl.SSL_mode.code] at h <;> rfl

/-- C4: in `prepare_options` with TLS support compiled in, on a well-typed
store with `USER`, the TLS mode of the resulting options is the mode that
`SSL_MODE` holds when `SSL_MODE` is set, otherwise `VERIFY_CA` when `SSL_CA`
is set, otherwise `REQUIRED`, whatever the other options and `secure` are. -/
theorem C4_resolved_tls_mode (settings : Settings_impl) (secure : Bool)
    (hu : settings.has_option .USER = true) (ht : settings.well_typed = true) :
    ∃ opts tls, prepare_options true settings secure = .ok opts ∧ opts.tls = some tls ∧
      (∀ M : Settings_impl.SSL_mode, settings.has_option .SSL_MODE = true →
        settings.get .SSL_MODE = .ok (.uint M.code) → tls.ssl_mode = M.to_cdk) ∧
      (settings.has_option .SSL_MODE = false → settings.has_option .SSL_CA = true →
        tls.ssl_mode = .VERIFY_CA) ∧
      (settings.has_option .SSL_MODE = false → settings.has_option .SSL_CA = false →
        tls.ssl_mode = .REQUIRED) := by
  obtain ⟨M0, opts, tls, hm0, hopts, htls, hmode, _, _⟩ :=
    prepare_options_ssl settings secure hu ht
  obtain ⟨M1, hm1, hset, hca, hreq⟩ := prepare_mode_ok settings ht
  have h01 : M0 = M1 := by
    rw [hm0] at hm1
    exact Settings_impl.SSL_mode.code_injective _ _ (by injection hm1)
  subst h01
  refine ⟨opts, tls, hopts, htls, ?_, ?_, ?_⟩
  · intro M hs hg
    have h := hset hs
    rw [hg] at h
    have hc : M.code = M0.code := by
      injection h with h
      injection h
    rw [hmode, Settings_impl.SSL_mode.code_injective _ _ hc]
  · intro h1 h2
    rw [hmode, hca h1 h2]
    rfl
  · intro h1 h2
    rw [hmode, hreq h1 h2]
    rfl

/-- Witness of C4 on the store `USER u, SSL_CA ca.pem`. -/
theorem C4_resolved_tls_mode_witness :
    ∃ opts tls, prepare_options true ⟨⟨[(.USER, .str "u"), (.SSL_CA, .str "ca.pem")], 0,
        false, false⟩⟩ false = .ok opts ∧ opts.tls = some tls ∧ tls.ssl_mode = .VERIFY_CA := by
  obtain ⟨opts, tls, h1, h2, _, h4, _⟩ := C4_resolved_tls_mode
    ⟨⟨[(.USER, .str "u"), (.SSL_CA, .str "ca.pem")], 0, false, false⟩⟩ false
    (by decide) (by decide)
  exact ⟨opts, tls, h1, h2, h4 (by decide) (by decide)⟩

/-- C5: in `prepare_options` with TLS support compiled in, on a well-typed
store with `USER` and without `AUTH`, the authentication method is `PLAIN` if
and only if the resolved TLS mode is not `DISABLED` or the caller passed
`secure = true`, and `MYSQL41` otherwise. -/
theorem C5_default_auth (settings : Settings_impl) (secure : Bool)
    (hu : settings.has_option .USER = true) (ht : settings.well_typed = true)
    (ha : settings.has_option .AUTH = false) :
    ∃ opts tls, prepare_options true settings secure = .ok opts ∧ opts.tls = some tls ∧
      (opts.auth_method = .PLAIN ↔ (tls.ssl_mode ≠ .DISABLED ∨ secure = true)) ∧
      (¬ (tls.ssl_mode ≠ .DISABLED ∨ secure = true) → opts.auth_method = .MYSQL41) ∧
      (tls.ssl_mode = .DISABLED →
        opts.auth_method = if secure then .PLAIN else .MYSQL41) ∧
      (tls.ssl_mode ≠ .DISABLED → opts.auth_method = .PLAIN) := by
  obtain ⟨M, opts, tls, _, hopts, htls, hmode, _, hauth⟩ :=
    prepare_options_ssl settings secure hu ht
  have hauth := hauth ha
  refine ⟨opts, tls, hopts, htls, ?_, ?_, ?_, ?_⟩ <;>
    cases M <;> cases secure <;>
    simp [hmode, Settings_impl.SSL_mode.to_cdk] at hauth ⊢ <;> simp [hauth]

/-- Witness of C5 on the store `USER u, SSL_MODE DISABLED` with the caller's
`secure` false: the method is `MYSQL41`. -/
theorem C5_default_auth_witness :
    ∃ opts tls, prepare_options true ⟨⟨[(.USER, .str "u"), (.SSL_MODE, .uint 1)], 0,
        false, false⟩⟩ false = .ok opts ∧ opts.tls = some tls ∧
      tls.ssl_mode = .DISABLED ∧ opts.auth_method = .MYSQL41 := by
  obtain ⟨opts, tls, h1, h2, _, _, h5, _⟩ := C5_default_auth
    ⟨⟨[(.USER, .str "u"), (.SSL_MODE, .uint 1)], 0, false, false⟩⟩ false
    (by decide) (by decide) (by decide)
  have hd : tls.ssl_mode = .DISABLED := by
    have h : prepare_options true ⟨⟨[(.USER, .str "u"), (.SSL_MODE, .uint 1)], 0,
        false, false⟩⟩ false = .ok ⟨"u", none, none, some ⟨.DISABLED, none, none⟩, .MYSQL41⟩ :=
      rfl
    rw [h] at h1
    injection h1 with h1
    rw [← h1] at h2
    injection h2 with h2
    rw [← h2]
  exact ⟨opts, tls, h1, h2, hd, by simpa using h5 hd⟩

/-- C6: for every option store without a `USER` entry, whatever its other
entries, counters and flags and in either build, `get_data_source` fails with
the thrown error "USER option not defined", and the connector is left as it
was given: not cleared, and no target added. -/
theorem C6_missing_user (with_ssl : Bool) (self : Settings_impl) (src : Multi_source)
    (h : self.has_option .USER = false) :
    self.get_data_source with_ssl src = (.error (.error "USER option not defined"), src) := by
  have hp : ∀ secure, prepare_options with_ssl self secure =
      .error (.error "USER option not defined") := by
    intro secure
    simp [prepare_options, prepare_basic, h, bind, Except.bind]
  unfold Settings_impl.get_data_source
  simp only [hp]

/-- Witness of C6 on the store `HOST a, PORT 33060` and a connector that holds
a target. -/
theorem C6_missing_user_witness :
    (Settings_impl.get_data_source true
      ⟨⟨[(.HOST, .str "a"), (.PORT, .uint 33060)], 1, false, false⟩⟩
      ⟨[⟨⟨"old", 1⟩, ⟨"u", none, none, none, .DEFAULT⟩, 5⟩]⟩) =
      (.error (.error "USER option not defined"),
        ⟨[⟨⟨"old", 1⟩, ⟨"u", none, none, none, .DEFAULT⟩, 5⟩]⟩) :=
  C6_missing_user true _ _ (by decide)

/-! ## Lemmas on the expected name -/

theorem prepare_auth_tls (settings : Settings_impl) (secure : Bool)
    (opts opts1 : TCPIP_options) (h : prepare_auth settings secure opts = .ok opts1) :
    opts1.tls = opts.tls := by
  unfold prepare_auth at h
  by_cases ha : settings.has_option .AUTH = true
  · simp only [ha, if_true, bind, Except.bind, pure, Except.pure] at h
    cases hg : settings.get .AUTH with
    | error e => simp [hg] at h
    | ok v =>
      cases hv : v.get_uint with
      | error e => simp [hg, hv] at h
      | ok n =>
        cases hga : get_auth (to_unsigned n) with
        | error e => simp [hg, hv, hga] at h
        | ok a =>
          simp [hg, hv, hga] at h
          rw [← h]
  · simp only [ha, pure, Except.pure] at h
    injection h with h
    rw [← h]

/-- With TLS support compiled in, options that `prepare_options` returns carry
a TLS policy, and its expected name is not set. -/
theorem prepare_options_tls (settings : Settings_impl) (secure : Bool)
    (opts : TCPIP_options) (h : prepare_options true settings secure = .ok opts) :
    ∃ tls, opts.tls = some tls ∧ tls.cn = none := by
  unfold prepare_options at h
  simp only [bind, Except.bind, if_true] at h
  cases hb : prepare_basic settings with
  | error e => simp [hb] at h
  | ok o =>
    cases hm : prepare_mode settings with
    | error e => simp [hb, hm] at h
    | ok mode =>
      simp only [hb, hm] at h
      by_cases hd : Settings_impl.SSL_mode.DISABLED.code = mode
      · simp only [hd, if_true] at h
        have := prepare_auth_tls _ _ _ _ h
        exact ⟨_, this, rfl⟩
      · simp only [hd, if_false] at h
        cases hg : get_ssl_mode mode with
        | error e => simp [hg] at h
        | ok m =>
          simp only [hg] at h
          by_cases hc : settings.has_option .SSL_CA = true
          · simp only [hc, if_true] at h
            cases hca : settings.get .SSL_CA with
            | error e => simp [hca] at h
            | ok v =>
              cases hs : v.get_string with
              | error e => simp [hca, hs] at h
              | ok ca =>
                simp only [hca, hs, pure, Except.pure] at h
                have := prepare_auth_tls _ _ _ _ h
                exact ⟨_, this, rfl⟩
          · simp only [hc, pure, Except.pure] at h
            have := prepare_auth_tls _ _ _ _ h
            exact ⟨_, this, rfl⟩

/-- What `add_host` does to the TLS policy and the connector when it returns:
the mode is kept, the expected name is the host of the added target under
`VERIFY_IDENTITY` and stays unset otherwise, and exactly one target is
added, with the new options. -/
theorem Settings_impl.add_host_tls (self : Settings_impl) (it it1 : Settings_impl.iterator)
    (prio : Int) (opts opts1 : TCPIP_options) (src src1 : Multi_source) (tls : TLS_options)
    (h : self.add_host true it prio opts src = .ok (it1, opts1, src1))
    (htls : opts.tls = some tls)
    (hcn : tls.ssl_mode ≠ .VERIFY_IDENTITY → tls.cn = none) :
    ∃ tls1 ds p, opts1.tls = some tls1 ∧ tls1.ssl_mode = tls.ssl_mode ∧
      (tls.ssl_mode ≠ .VERIFY_IDENTITY → tls1.cn = none) ∧
      (tls.ssl_mode = .VERIFY_IDENTITY → tls1.cn = some ds.host) ∧
      src1 = src.add ds opts1 p := by
  unfold Settings_impl.add_host at h
  cases hn : self.add_host_name it with
  | error e => simp [hn] at h
  | ok r1 =>
    obtain ⟨host, i1⟩ := r1
    simp only [hn] at h
    cases hp : Settings_impl.add_host_port i1 with
    | error e => simp [hp] at h
    | ok r2 =>
      obtain ⟨port, i2⟩ := r2
      simp only [hp] at h
      cases hq : Settings_impl.add_host_prio i2 prio with
      | error e => simp [hq] at h
      | ok r3 =>
        obtain ⟨prio1, i3⟩ := r3
        simp only [hq] at h
        split at h
        · simp at h
        · split at h
          · simp at h
          · simp only [Except.ok.injEq, Prod.mk.injEq] at h
            obtain ⟨_, ho, hs⟩ := h
            rw [ho] at hs
            by_cases hv : tls.ssl_mode = .VERIFY_IDENTITY
            · refine ⟨{ tls with cn := some host }, ⟨host, port⟩, int_to_ushort prio1, ?_, rfl,
                fun hne => absurd hv hne, fun _ => rfl, hs.symm⟩
              rw [← ho]
              simp [Settings_impl.add_host_cn, htls, hv]
            · refine ⟨tls, ⟨host, port⟩, int_to_ushort prio1, ?_, rfl, hcn,
                fun he => absurd he hv, hs.symm⟩
              rw [← ho]
              simp [Settings_impl.add_host_cn, htls, hv]

/-- The scan keeps the TLS mode of the options, and every target in the
connector when it stops (however it stops) has the expected name of its own
host under `VERIFY_IDENTITY` and none otherwise, if those it started with
had. -/
theorem Settings_impl.scan_tls (self : Settings_impl) (M : SSL_MODE) :
    ∀ (fuel : Nat) (it : Settings_impl.iterator) (prio : Int) (opts : TCPIP_options)
      (src : Multi_source) (r : Except Failure Unit) (src1 : Multi_source),
      Settings_impl.scan true self fuel it prio opts src = (r, src1) →
      (∃ tls, opts.tls = some tls ∧ tls.ssl_mode = M ∧
        (M ≠ .VERIFY_IDENTITY → tls.cn = none)) →
      (∀ t ∈ src.targets, ∃ tls, t.opts.tls = some tls ∧ tls.ssl_mode = M ∧
        (M ≠ .VERIFY_IDENTITY → tls.cn = none) ∧
        (M = .VERIFY_IDENTITY → tls.cn = some t.ds.host)) →
      ∀ t ∈ src1.targets, ∃ tls, t.opts.tls = some tls ∧ tls.ssl_mode = M ∧
        (M ≠ .VERIFY_IDENTITY → tls.cn = none) ∧
        (M = .VERIFY_IDENTITY → tls.cn = some t.ds.host) := by
  have hstep : ∀ (it it1 : Settings_impl.iterator) (prio : Int) (opts opts1 : TCPIP_options)
      (src src2 : Multi_source),
      self.add_host true it prio opts src = .ok (it1, opts1, src2) →
      (∃ tls, opts.tls = some tls ∧ tls.ssl_mode = M ∧
        (M ≠ .VERIFY_IDENTITY → tls.cn = none)) →
      (∀ t ∈ src.targets, ∃ tls, t.opts.tls = some tls ∧ tls.ssl_mode = M ∧
        (M ≠ .VERIFY_IDENTITY → tls.cn = none) ∧
        (M = .VERIFY_IDENTITY → tls.cn = some t.ds.host)) →
      (∃ tls, opts1.tls = some tls ∧ tls.ssl_mode = M ∧
        (M ≠ .VERIFY_IDENTITY → tls.cn = none)) ∧
      (∀ t ∈ src2.targets, ∃ tls, t.opts.tls = some tls ∧ tls.ssl_mode = M ∧
        (M ≠ .VERIFY_IDENTITY → tls.cn = none) ∧
        (M = .VERIFY_IDENTITY → tls.cn = some t.ds.host)) := by
    intro it it1 prio opts opts1 src src2 hadd hopts hsrc
    obtain ⟨tls, htls, hm, hcn⟩ := hopts
    subst hm
    obtain ⟨tls1, ds, p, h1, h2, h3, h4, h5⟩ :=
      self.add_host_tls it it1 prio opts opts1 src src2 tls hadd htls hcn
    refine ⟨⟨tls1, h1, h2, h3⟩, ?_⟩
    intro t ht
    rw [h5] at ht
    simp only [Multi_source.add, List.mem_append, List.mem_singleton] at ht
    rcases ht with ht | ht
    · exact hsrc t ht
    · subst ht
      exact ⟨tls1, h1, h2, h3, h4⟩
  intro fuel
  induction fuel with
  | zero =>
    intro it prio opts src r src1 h _ hsrc
    cases it with
    | nil =>
      simp only [Settings_impl.scan, Prod.mk.injEq] at h
      rw [← h.2]; exact hsrc
    | cons e rest =>
      simp only [Settings_impl.scan, Prod.mk.injEq] at h
      rw [← h.2]; exact hsrc
  | succ fuel ih =>
    intro it prio opts src r src1 h hopts hsrc
    cases it with
    | nil =>
      simp only [Settings_impl.scan, Prod.mk.injEq] at h
      rw [← h.2]; exact hsrc
    | cons e rest =>
      obtain ⟨k, v⟩ := e
      cases k
      case HOST =>
        simp only [Settings_impl.scan] at h
        cases hadd : self.add_host true ((.HOST, v) :: rest) prio opts src with
        | error e =>
          simp only [hadd, Prod.mk.injEq] at h
          rw [← h.2]; exact hsrc
        | ok res =>
          obtain ⟨it1, opts1, src2⟩ := res
          simp only [hadd] at h
          obtain ⟨ho, hs⟩ := hstep _ _ _ _ _ _ _ hadd hopts hsrc
          exact ih it1 (prio - 1) opts1 src2 r src1 h ho hs
      case PORT =>
        simp only [Settings_impl.scan] at h
        by_cases hc : self.m_data.m_host_cnt = 0
        · simp only [hc, if_true] at h
          cases hadd : self.add_host true ((.PORT, v) :: rest) prio opts src with
          | error e =>
            simp only [hadd, Prod.mk.injEq] at h
            rw [← h.2]; exact hsrc
          | ok res =>
            obtain ⟨it1, opts1, src2⟩ := res
            simp only [hadd] at h
            obtain ⟨ho, hs⟩ := hstep _ _ _ _ _ _ _ hadd hopts hsrc
            exact ih it1 (prio - 1) opts1 src2 r src1 h ho hs
        · simp only [hc, if_false, Prod.mk.injEq] at h
          rw [← h.2]; exact hsrc
      case SOCKET =>
        simp only [Settings_impl.scan, Settings_impl.add_socket, Prod.mk.injEq] at h
        rw [← h.2]; exact hsrc
      all_goals
        simp only [Settings_impl.scan] at h
        exact ih rest prio opts src r src1 h hopts hsrc

/-- C7 (amended): in the build with TLS support compiled in (`WITH_SSL`), for
every option store on which `get_data_source` succeeds, each target added
carries a TLS policy with the resolved mode, whose expected name (CN) is set
if and only if that mode is `VERIFY_IDENTITY`, and is then the host string of
that same target; so two targets with distinct hosts carry distinct expected
names. -/
theorem C7_expected_name (self : Settings_impl) (src src1 : Multi_source)
    (h : self.get_data_source true src = (.ok (), src1)) :
    ∃ opts0 tls0,
      prepare_options true self (self.m_data.m_sock && (1 == self.m_data.m_host_cnt)) =
        .ok opts0 ∧ opts0.tls = some tls0 ∧
      (∀ t ∈ src1.targets, ∃ tls, t.opts.tls = some tls ∧ tls.ssl_mode = tls0.ssl_mode ∧
        (tls.cn ≠ none ↔ tls0.ssl_mode = .VERIFY_IDENTITY) ∧
        (tls0.ssl_mode = .VERIFY_IDENTITY → tls.cn = some t.ds.host)) ∧
      (tls0.ssl_mode = .VERIFY_IDENTITY → ∀ t1 ∈ src1.targets, ∀ t2 ∈ src1.targets,
        t1.ds.host ≠ t2.ds.host →
        t1.opts.tls.bind TLS_options.cn ≠ t2.opts.tls.bind TLS_options.cn) := by
  unfold Settings_impl.get_data_source at h
  cases hp : prepare_options true self (self.m_data.m_sock && (1 == self.m_data.m_host_cnt)) with
  | error e => simp [hp] at h
  | ok opts0 =>
    simp only [hp] at h
    obtain ⟨tls0, htls0, hcn0⟩ := prepare_options_tls _ _ _ hp
    cases hs : Settings_impl.scan true self self.m_data.m_options.length self.m_data.m_options
        (if self.m_data.m_user_priorities then -1 else 100) opts0 src.clear with
    | mk r src2 =>
      simp only [hs] at h
      have hinv := Settings_impl.scan_tls self tls0.ssl_mode _ _ _ _ _ _ _ hs
        ⟨tls0, htls0, rfl, fun _ => hcn0⟩ (by simp [Multi_source.clear])
      have hsrc : src2 = src1 := by
        cases r with
        | error e => simp at h
        | ok u =>
          simp only at h
          split at h
          · simp only [Prod.mk.injEq] at h; exact h.2
          · simp at h
      subst hsrc
      have hall : ∀ t ∈ src2.targets, ∃ tls, t.opts.tls = some tls ∧
          tls.ssl_mode = tls0.ssl_mode ∧
          (tls.cn ≠ none ↔ tls0.ssl_mode = .VERIFY_IDENTITY) ∧
          (tls0.ssl_mode = .VERIFY_IDENTITY → tls.cn = some t.ds.host) := by
        intro t ht
        obtain ⟨tls, h1, h2, h3, h4⟩ := hinv t ht
        refine ⟨tls, h1, h2, ?_, h4⟩
        constructor
        · intro hne
          by_contra hv
          exact hne (h3 hv)
        · intro hv
          rw [h4 hv]
          simp
      refine ⟨opts0, tls0, rfl, htls0, hall, ?_⟩
      intro hv t1 ht1 t2 ht2 hne
      obtain ⟨tls1, h11, _, _, h14⟩ := hall t1 ht1
      obtain ⟨tls2, h21, _, _, h24⟩ := hall t2 ht2
      rw [h11, h21]
      simp only [Option.some_bind, h14 hv, h24 hv, ne_eq, Option.some.injEq]
      exact hne

/-- Witness of C7 (amended) on the store `SSL_MODE VERIFY_IDENTITY, HOST a, HOST b,
PORT 33061, USER u`: the two targets carry the expected names `a` and `b`. -/
theorem C7_expected_name_witness :
    (verify_identity_store.get_data_source true ⟨[]⟩).1 = .ok () ∧
    (verify_identity_store.get_data_source true ⟨[]⟩).2.targets.map
      (fun t => (t.ds.host, t.opts.tls.bind TLS_options.cn)) =
        [("a", some "a"), ("b", some "b")] ∧
    ∃ opts0 tls0,
      prepare_options true verify_identity_store
        (verify_identity_store.m_data.m_sock && (1 == verify_identity_store.m_data.m_host_cnt)) =
        .ok opts0 ∧ opts0.tls = some tls0 ∧
      (∀ t ∈ (verify_identity_store.get_data_source true ⟨[]⟩).2.targets,
        ∃ tls, t.opts.tls = some tls ∧ tls.ssl_mode = tls0.ssl_mode ∧
        (tls.cn ≠ none ↔ tls0.ssl_mode = .VERIFY_IDENTITY) ∧
        (tls0.ssl_mode = .VERIFY_IDENTITY → tls.cn = some t.ds.host)) ∧
      (tls0.ssl_mode = .VERIFY_IDENTITY →
        ∀ t1 ∈ (verify_identity_store.get_data_source true ⟨[]⟩).2.targets,
        ∀ t2 ∈ (verify_identity_store.get_data_source true ⟨[]⟩).2.targets,
        t1.ds.host ≠ t2.ds.host →
        t1.opts.tls.bind TLS_options.cn ≠ t2.opts.tls.bind TLS_options.cn) :=
  ⟨rfl, rfl, C7_expected_name verify_identity_store ⟨[]⟩
    (verify_identity_store.get_data_source true ⟨[]⟩).2 rfl⟩

/-- C7 as stated fails: in the build without TLS support, `get_data_source`
succeeds on the store `SSL_MODE VERIFY_IDENTITY, HOST a, HOST b, PORT 33061,
USER u`, whose resolved mode is `VERIFY_IDENTITY`, and the two targets carry
no TLS policy, hence no expected name. -/
theorem C7_counterexample :
    (verify_identity_store.get_data_source false ⟨[]⟩).1 = .ok () ∧
    prepare_mode verify_identity_store =
      .ok Settings_impl.SSL_mode.VERIFY_IDENTITY.code ∧
    (verify_identity_store.get_data_source false ⟨[]⟩).2.targets.map
      (fun t => (t.ds.host, t.opts.tls)) = [("a", none), ("b", none)] ∧
    (verify_identity_store.get_data_source false ⟨[]⟩).2.targets.map
      (fun t => t.opts.tls.bind TLS_options.cn) = [none, none] :=
  ⟨rfl, rfl, rfl, rfl⟩

/-- C8: `prepare_for_cmd` when `store()` does not fail: a pending result is
stored exactly once and the pending reference becomes empty; with nothing
pending nothing is stored and the session is unchanged; so a second call in a
row is a no-op that leaves the session as the first call left it. -/
theorem C8_prepare_for_cmd (s : Session_impl)
    (hok : ∀ r, s.m_current_result = some r → r.store_failure = none) :
    (∀ r, s.m_current_result = some r →
      s.prepare_for_cmd = (.ok (), ⟨none, s.store_calls ++ [(r.id, true)]⟩)) ∧
    (s.m_current_result = none → s.prepare_for_cmd = (.ok (), s)) ∧
    s.prepare_for_cmd.2.m_current_result = none ∧
    s.prepare_for_cmd.2.prepare_for_cmd = (.ok (), s.prepare_for_cmd.2) := by
  obtain ⟨cur, calls⟩ := s
  cases cur with
  | none => simp [Session_impl.prepare_for_cmd]
  | some r =>
    have hr : r.store_failure = none := hok r rfl
    simp [Session_impl.prepare_for_cmd, Result_impl.store, hr]

/-- Witness of C8 on a session with a pending result: the first call stores
it once, the second call stores nothing. -/
theorem C8_prepare_for_cmd_witness :
    pending_session.prepare_for_cmd = (.ok (), ⟨none, [(7, true)]⟩) ∧
    pending_session.prepare_for_cmd.2.prepare_for_cmd = (.ok (), ⟨none, [(7, true)]⟩) :=
  have h := C8_prepare_for_cmd pending_session (by
    intro r hr
    simp only [pending_session, Option.some.injEq] at hr
    rw [← hr])
  ⟨h.1 ⟨7, none⟩ rfl, h.2.2.2⟩

/-- C9 (amended): when `store()` of the pending result fails inside
`prepare_for_cmd`, the failure propagates to the caller and the pending
reference is left as it was, so a following `prepare_for_cmd` call attempts
the materialization again. -/
theorem C9_store_failure_keeps_pending (s : Session_impl) (r : Result_impl) (e : Failure)
    (hr : s.m_current_result = some r) (he : r.store_failure = some e) :
    s.prepare_for_cmd.1 = .error e ∧
    s.prepare_for_cmd.2.m_current_result = some r ∧
    s.prepare_for_cmd.2.store_calls = s.store_calls ++ [(r.id, false)] ∧
    s.prepare_for_cmd.2.prepare_for_cmd.1 = .error e ∧
    s.prepare_for_cmd.2.prepare_for_cmd.2.store_calls =
      s.store_calls ++ [(r.id, false), (r.id, false)] := by
  obtain ⟨cur, calls⟩ := s
  simp only at hr
  subst hr
  simp [Session_impl.prepare_for_cmd, Result_impl.store, he]

/-- Witness of C9 (amended) on a session whose pending result fails to store. -/
theorem C9_store_failure_keeps_pending_witness :
    failing_session.prepare_for_cmd.1 = .error (.error "lost connection") ∧
    failing_session.prepare_for_cmd.2.m_current_result =
      some ⟨7, some (.error "lost connection")⟩ ∧
    failing_session.prepare_for_cmd.2.store_calls = [] ++ [(7, false)] ∧
    failing_session.prepare_for_cmd.2.prepare_for_cmd.1 = .error (.error "lost connection") ∧
    failing_session.prepare_for_cmd.2.prepare_for_cmd.2.store_calls =
      [] ++ [(7, false), (7, false)] :=
  C9_store_failure_keeps_pending failing_session ⟨7, some (.error "lost connection")⟩
    (.error "lost connection") rfl rfl

/-- C9 as stated fails: after a failed `store()` the pending reference is not
cleared, and the next call calls `store()` on the same result again. -/
theorem C9_counterexample :
    failing_session.prepare_for_cmd.1 = .error (.error "lost connection") ∧
    failing_session.prepare_for_cmd.2.m_current_result ≠ none ∧
    failing_session.prepare_for_cmd.2.prepare_for_cmd.2.store_calls =
      [(7, false), (7, false)] :=
  ⟨rfl, by decide, rfl⟩

/-- C10 (amended): for every grouped option store with valid `PRIORITY` values
(and none at all when the user-priorities flag is unset) on which
`get_data_source` succeeds, the targets are passed to the connector in store
order of their `HOST` groups; with auto-assigned priorities this sequence is
strictly descending in priority, and with explicit priorities every target
carries the value of its own `PRIORITY` entry, whatever the order of the
values. -/
theorem C10_store_order (with_ssl : Bool) (items : List Item) (host_cnt : Nat)
    (user_priorities sock : Bool) (src src1 : Multi_source)
    (hflag : user_priorities = false → ∀ g ∈ groups_of items, g.priority = none)
    (hvalid : ∀ g ∈ groups_of items, ∀ q, g.priority = some q → q ≤ 100)
    (h : (settings_of items host_cnt user_priorities sock).get_data_source with_ssl src =
      (.ok (), src1)) :
    src1.targets.map Target.ds = (groups_of items).map Host_group.ds ∧
    (user_priorities = false → src1.targets.Pairwise (fun a b => a.prio > b.prio)) ∧
    (user_priorities = true →
      src1.targets.map (fun t => some t.prio) = (groups_of items).map Host_group.priority) := by
  have hu : (settings_of items host_cnt user_priorities sock).has_option .USER = true := by
    by_contra hn
    have hn : (settings_of items host_cnt user_priorities sock).has_option .USER = false := by
      simpa using hn
    have hp : ∀ secure, prepare_options with_ssl
        (settings_of items host_cnt user_priorities sock) secure =
        .error (.error "USER option not defined") := by
      intro secure
      simp [prepare_options, prepare_basic, hn, bind, Except.bind]
    unfold Settings_impl.get_data_source at h
    simp [hp] at h
  obtain ⟨opts, fuel, hfuel, hrun⟩ := Settings_impl.get_data_source_grouped with_ssl items
    host_cnt user_priorities sock src hu
  rw [hrun] at h
  cases user_priorities with
  | false =>
    have hnone := hflag rfl
    simp only [Bool.false_eq_true, if_false] at h
    by_cases hk : (groups_of items).length ≤ 101
    · rw [Settings_impl.scan_auto with_ssl _ items fuel 100 opts ⟨[]⟩ hfuel hnone
        (by push_cast; omega) (by omega)] at h
      have hsrc : src1 = ⟨auto_targets with_ssl opts 100 (groups_of items)⟩ := by
        simp only [List.nil_append] at h
        split at h
        · simp only [Prod.mk.injEq] at h; exact h.2.symm
        · simp at h
      subst hsrc
      exact ⟨auto_targets_ds _ _ _ _, fun _ => auto_targets_pairwise with_ssl opts _ hk,
        fun hc => absurd hc (by decide)⟩
    · have hfail := Settings_impl.scan_auto_exhausted with_ssl
        (settings_of items host_cnt false sock) items fuel 100 opts ⟨[]⟩ hfuel hnone
        (by push_cast; omega) (by omega) (by omega)
      generalize Settings_impl.scan with_ssl (settings_of items host_cnt false sock) fuel
        (store_of items) 100 opts ⟨[]⟩ = r at h hfail
      obtain ⟨r1, r2⟩ := r
      simp only at hfail
      subst hfail
      simp at h
  | true =>
    simp only [if_true] at h
    by_cases hall : ∀ g ∈ groups_of items, g.priority ≠ none
    · have hall1 : ∀ g ∈ groups_of items, ∃ q, g.priority = some q ∧ q ≤ 100 := by
        intro g hg
        cases hq : g.priority with
        | none => exact absurd hq (hall g hg)
        | some q => exact ⟨q, rfl, hvalid g hg q hq⟩
      rw [Settings_impl.scan_explicit with_ssl _ items fuel (-1) opts ⟨[]⟩ hfuel (by omega)
        hall1] at h
      have hsrc : src1 = ⟨explicit_targets with_ssl opts (groups_of items)⟩ := by
        simp only [List.nil_append] at h
        split at h
        · simp only [Prod.mk.injEq] at h; exact h.2.symm
        · simp at h
      subst hsrc
      exact ⟨explicit_targets_ds _ _ _, fun hc => absurd hc (by decide),
        fun _ => explicit_targets_prio with_ssl opts _ hall1⟩
    · have hex : ∃ g ∈ groups_of items, g.priority = none := by
        push_neg at hall
        exact hall
      have hfail := Settings_impl.scan_explicit_missing with_ssl
        (settings_of items host_cnt true sock) items fuel (-1) opts ⟨[]⟩ hfuel (by omega)
        hvalid hex
      generalize Settings_impl.scan with_ssl (settings_of items host_cnt true sock) fuel
        (store_of items) (-1) opts ⟨[]⟩ = r at h hfail
      obtain ⟨r1, r2⟩ := r
      simp only at hfail
      subst hfail
      simp at h

/-- Witness of C10 (amended) on the store `HOST a, PRIORITY 1, HOST b,
PORT 33061, PRIORITY 2, USER u`. -/
theorem C10_store_order_witness :
    ((settings_of ascending_priorities 2 true false).get_data_source true ⟨[]⟩).1 = .ok () ∧
    ((settings_of ascending_priorities 2 true false).get_data_source true ⟨[]⟩).2.targets.map
      Target.ds = (groups_of ascending_priorities).map Host_group.ds :=
  ⟨rfl, (C10_store_order true ascending_priorities 2 true false ⟨[]⟩
    ((settings_of ascending_priorities 2 true false).get_data_source true ⟨[]⟩).2
    (fun hc => absurd hc (by decide)) (by simp [groups_of, ascending_priorities]) rfl).1⟩

/-- C10 as stated fails: with the explicit priorities 1 and 2 listed in that
order, the target of priority 1 is added before the target of priority 2. -/
theorem C10_counterexample :
    ((settings_of ascending_priorities 2 true false).get_data_source true ⟨[]⟩).1 = .ok () ∧
    ((settings_of ascending_priorities 2 true false).get_data_source true ⟨[]⟩).2.targets.map
      (fun t => (t.ds.host, t.prio)) = [("a", 1), ("b", 2)] ∧
    ¬ (((settings_of ascending_priorities 2 true false).get_data_source true
      ⟨[]⟩).2.targets.map Target.prio).Pairwise (fun a b => a ≥ b) := by
  refine ⟨rfl, rfl, ?_⟩
  have h : ((settings_of ascending_priorities 2 true false).get_data_source true
      ⟨[]⟩).2.targets.map Target.prio = [1, 2] := rfl
  rw [h]
  decide

/-! ## The connector after a failed scan -/

theorem groups_of_append (xs ys : List Item) :
    groups_of (xs ++ ys) = groups_of xs ++ groups_of ys := by
  induction xs with
  | nil => rfl
  | cons i rest ih =>
    cases i with
    | host g => simp [groups_of, ih]
    | global o => simp [groups_of, ih]

/-- The scan of a grouped store, started with a negative counter, whose first
group without `PRIORITY` is `g`: the groups before `g` are added, then the
error is thrown, and the connector keeps what was added. -/
theorem Settings_impl.scan_explicit_partial (with_ssl : Bool) (self : Settings_impl)
    (g : Host_group) (post : List Item) (hg : g.priority = none) :
    ∀ (pre : List Item) (fuel : Nat) (prio : Int) (opts : TCPIP_options)
      (src : Multi_source),
      (pre ++ Item.host g :: post).length ≤ fuel → prio < 0 →
      (∀ g1 ∈ groups_of pre, ∃ q, g1.priority = some q ∧ q ≤ 100) →
      Settings_impl.scan with_ssl self fuel (store_of (pre ++ Item.host g :: post)) prio opts
          src =
        (.error (.error "No priority specified for host ..."),
          ⟨src.targets ++ explicit_targets with_ssl opts (groups_of pre)⟩) := by
  intro pre
  induction pre with
  | nil =>
    intro fuel prio opts src hf hp _
    cases fuel with
    | zero => simp at hf
    | succ fuel =>
      simp only [List.nil_append, store_of, Item.entries]
      rw [Settings_impl.scan_host, Settings_impl.add_host_group_missing with_ssl self g
        (store_of post) prio opts src (store_of_head post) hp hg]
      simp [groups_of, explicit_targets]
  | cons i rest ih =>
    intro fuel prio opts src hf hp hall
    cases fuel with
    | zero => simp at hf
    | succ fuel =>
      have hf1 : (rest ++ Item.host g :: post).length ≤ fuel := by simpa using hf
      cases i with
      | global o =>
        simp only [List.cons_append, store_of, Item.entries, List.singleton_append,
          groups_of] at *
        rw [Settings_impl.scan_global]
        exact ih fuel prio opts src hf1 hp hall
      | host g1 =>
        simp only [List.cons_append, store_of, Item.entries, groups_of, List.mem_cons,
          forall_eq_or_imp] at *
        obtain ⟨⟨q, hq, hq1⟩, hrest⟩ := hall
        rw [Settings_impl.scan_host,
          Settings_impl.add_host_group_explicit with_ssl self g1 _ prio opts src q
            (store_of_head _) hp hq hq1]
        simp only [List.append_eq]
        rw [ih fuel (prio - 1) _ _ hf1 (by omega) hrest, explicit_targets_cn]
        simp [explicit_targets, Multi_source.add, Host_group.target, hq]

/-- C11 (amended): when the scan of `get_data_source` fails with the thrown
error "No priority specified for host ..." at a `HOST` group, the connector
has been cleared and the `HOST` groups before the failing one are left added
to it, in store order and with their priorities; nothing is rolled back. -/
theorem C11_partial_list_on_failure (with_ssl : Bool) (pre post : List Item)
    (g : Host_group) (host_cnt : Nat) (sock : Bool) (src : Multi_source)
    (huser : ∃ u, Item.global (.USER u) ∈ pre ++ Item.host g :: post)
    (hpre : ∀ g1 ∈ groups_of pre, ∃ q, g1.priority = some q ∧ q ≤ 100)
    (hg : g.priority = none) :
    ∃ src1,
      (settings_of (pre ++ Item.host g :: post) host_cnt true sock).get_data_source with_ssl
          src =
        (.error (.error "No priority specified for host ..."), src1) ∧
      src1.targets.map Target.ds = (groups_of pre).map Host_group.ds ∧
      src1.targets.map (fun t => some t.prio) = (groups_of pre).map Host_group.priority ∧
      src1.targets.length = (groups_of pre).length := by
  obtain ⟨opts, fuel, hfuel, hrun⟩ := Settings_impl.get_data_source_grouped with_ssl
    (pre ++ Item.host g :: post) host_cnt true sock src
    (settings_of_has_user _ host_cnt true sock huser)
  simp only [if_true] at hrun
  rw [Settings_impl.scan_explicit_partial with_ssl _ g post hg pre fuel (-1) opts ⟨[]⟩ hfuel
    (by omega) hpre] at hrun
  refine ⟨_, hrun, ?_, ?_, ?_⟩
  · simpa using explicit_targets_ds with_ssl opts (groups_of pre)
  · simpa using explicit_targets_prio with_ssl opts (groups_of pre) hpre
  · simp [explicit_targets]

/-- Witness of C11 (amended) on the store `USER u, HOST a, PRIORITY 7, HOST b`:
the target of `a` stays in the connector. -/
theorem C11_partial_list_on_failure_witness :
    ∃ src1,
      (settings_of ([.global (.USER "u"), .host ⟨"a", none, some 7⟩] ++
          Item.host ⟨"b", none, none⟩ :: []) 2 true false).get_data_source true ⟨[]⟩ =
        (.error (.error "No priority specified for host ..."), src1) ∧
      src1.targets.map Target.ds =
        (groups_of [.global (.USER "u"), .host ⟨"a", none, some 7⟩]).map Host_group.ds ∧
      src1.targets.map (fun t => some t.prio) =
        (groups_of [.global (.USER "u"), .host ⟨"a", none, some 7⟩]).map
          Host_group.priority ∧
      src1.targets.length = (groups_of [.global (.USER "u"), .host ⟨"a", none, some 7⟩]).length :=
  C11_partial_list_on_failure true [.global (.USER "u"), .host ⟨"a", none, some 7⟩] []
    ⟨"b", none, none⟩ 2 false ⟨[]⟩ ⟨"u", by decide⟩ (by simp [groups_of]) rfl

/-- C11 as stated fails: on the store `USER u, HOST a, PRIORITY 7, HOST b` the
scan throws at `HOST b`, and the connector, given empty, holds the target of
`HOST a`. -/
theorem C11_counterexample :
    ((settings_of priority_then_none 2 true false).get_data_source true ⟨[]⟩).1 =
      .error (.error "No priority specified for host ...") ∧
    ((settings_of priority_then_none 2 true false).get_data_source true ⟨[]⟩).2.targets.map
      (fun t => (t.ds.host, t.prio)) = [("a", 7)] :=
  ⟨rfl, rfl⟩

/-! ## Stores without endpoint entries -/

/-- On a well-typed store with `USER`, `get_data_source` prepares the options,
clears the connector and runs the scan from the first entry. -/
theorem Settings_impl.get_data_source_scan (with_ssl : Bool) (self : Settings_impl)
    (src : Multi_source) (hu : self.has_option .USER = true)
    (ht : self.well_typed = true) :
    ∃ opts,
      prepare_options with_ssl self (self.m_data.m_sock && (1 == self.m_data.m_host_cnt)) =
        .ok opts ∧
      self.get_data_source with_ssl src =
        match Settings_impl.scan with_ssl self self.m_data.m_options.length
          self.m_data.m_options (if self.m_data.m_user_priorities then -1 else 100) opts
          ⟨[]⟩ with
        | (.error e, src1) => (.error e, src1)
        | (.ok _, src1) =>
          if 0 < src1.size then (.ok (), src1) else (.error .assertion, src1) := by
  obtain ⟨opts, ho⟩ := prepare_options_ok with_ssl self
    (self.m_data.m_sock && (1 == self.m_data.m_host_cnt)) hu ht
  refine ⟨opts, ho, ?_⟩
  unfold Settings_impl.get_data_source
  simp only [ho]
  rfl

/-- Entries that are neither `HOST`, `PORT` nor `SOCKET` are stepped over one
by one. -/
theorem Settings_impl.scan_skip (with_ssl : Bool) (self : Settings_impl) :
    ∀ (pre : Settings_impl.iterator) (fuel : Nat) (rest : Settings_impl.iterator)
      (prio : Int) (opts : TCPIP_options) (src : Multi_source),
      (∀ e ∈ pre, e.1 ≠ .HOST ∧ e.1 ≠ .PORT ∧ e.1 ≠ .SOCKET) →
      Settings_impl.scan with_ssl self (pre.length + fuel) (pre ++ rest) prio opts src =
        Settings_impl.scan with_ssl self fuel rest prio opts src := by
  intro pre
  induction pre with
  | nil => intro fuel rest prio opts src _; simp
  | cons e tl ih =>
    intro fuel rest prio opts src h
    obtain ⟨k, v⟩ := e
    have hk := h (k, v) (by simp)
    have htl : ∀ e ∈ tl, e.1 ≠ .HOST ∧ e.1 ≠ .PORT ∧ e.1 ≠ .SOCKET :=
      fun e he => h e (by simp [he])
    have hl : ((k, v) :: tl).length + fuel = (tl.length + fuel) + 1 := by
      simp only [List.length_cons]; omega
    rw [hl, List.cons_append]
    cases k <;> simp only [ne_eq, not_true_eq_false, false_and, and_false] at hk <;>
      (simp only [Settings_impl.scan]; exact ih fuel rest prio opts src htl)

/-- The scan of a store without `HOST`, `PORT` and `SOCKET` entries reaches the
end and adds nothing. -/
theorem Settings_impl.scan_no_endpoints (with_ssl : Bool) (self : Settings_impl)
    (it : Settings_impl.iterator) (prio : Int) (opts : TCPIP_options) (src : Multi_source)
    (h : ∀ e ∈ it, e.1 ≠ .HOST ∧ e.1 ≠ .PORT ∧ e.1 ≠ .SOCKET) :
    Settings_impl.scan with_ssl self it.length it prio opts src = (.ok (), src) := by
  have := Settings_impl.scan_skip with_ssl self it 0 [] prio opts src h
  simp only [Nat.add_zero, List.append_nil] at this
  rw [this]
  rfl

/-- When `get_data_source` succeeds the connector holds at least one target. -/
theorem Settings_impl.get_data_source_nonempty (with_ssl : Bool) (self : Settings_impl)
    (src src1 : Multi_source) (h : self.get_data_source with_ssl src = (.ok (), src1)) :
    0 < src1.size := by
  unfold Settings_impl.get_data_source at h
  cases hp : prepare_options with_ssl self
      (self.m_data.m_sock && (1 == self.m_data.m_host_cnt)) with
  | error e => simp [hp] at h
  | ok opts =>
    simp only [hp] at h
    generalize Settings_impl.scan with_ssl self self.m_data.m_options.length
      self.m_data.m_options (if self.m_data.m_user_priorities then -1 else 100) opts
      src.clear = r at h
    obtain ⟨r1, r2⟩ := r
    cases r1 with
    | error e => simp at h
    | ok u =>
      simp only at h
      split at h
      · rename_i hpos
        simp only [Prod.mk.injEq] at h
        rw [← h.2]; exact hpos
      · simp at h

/-- C12 (amended): for every well-typed option store that has a `USER` entry
but no `HOST`, `PORT` or `SOCKET` entry, `get_data_source` clears the connector
and then fails the assertion `0 < src.size()`, an internal invariant failure
and not a thrown error as for a missing `USER`; and whenever it succeeds the
endpoint list is non-empty. -/
theorem C12_empty_list_asserts (with_ssl : Bool) (self : Settings_impl) (src : Multi_source)
    (hu : self.has_option .USER = true) (ht : self.well_typed = true)
    (hno : ∀ e ∈ self.m_data.m_options, e.1 ≠ .HOST ∧ e.1 ≠ .PORT ∧ e.1 ≠ .SOCKET) :
    self.get_data_source with_ssl src = (.error .assertion, ⟨[]⟩) ∧
    (∀ (other : Settings_impl) (src2 src3 : Multi_source),
      other.get_data_source with_ssl src2 = (.ok (), src3) → src3.targets ≠ []) := by
  constructor
  · obtain ⟨opts, _, hrun⟩ := self.get_data_source_scan with_ssl src hu ht
    rw [hrun, Settings_impl.scan_no_endpoints with_ssl self _ _ opts ⟨[]⟩ hno]
    rfl
  · intro other src2 src3 h
    have := other.get_data_source_nonempty with_ssl src2 src3 h
    intro hnil
    rw [Multi_source.size, hnil] at this
    simp at this

/-- Witness of C12 (amended) on the store `USER u, DB test`. -/
theorem C12_empty_list_asserts_witness :
    Settings_impl.get_data_source true
        ⟨⟨[(.USER, .str "u"), (.DB, .str "test")], 0, false, false⟩⟩ ⟨[]⟩ =
      (.error .assertion, ⟨[]⟩) :=
  (C12_empty_list_asserts true ⟨⟨[(.USER, .str "u"), (.DB, .str "test")], 0, false, false⟩⟩
    ⟨[]⟩ (by decide) (by decide) (by decide)).1

/-- C12 as stated fails: on the store `USER u` the failure is the failed
assertion, which is not a thrown error, whatever its message. -/
theorem C12_counterexample :
    (Settings_impl.get_data_source true ⟨⟨[(.USER, .str "u")], 0, false, false⟩⟩ ⟨[]⟩).1 =
      .error .assertion ∧
    ∀ msg : String,
      (Settings_impl.get_data_source true ⟨⟨[(.USER, .str "u")], 0, false, false⟩⟩ ⟨[]⟩).1 ≠
        .error (.error msg) := by
  have h : (Settings_impl.get_data_source true ⟨⟨[(.USER, .str "u")], 0, false, false⟩⟩
      ⟨[]⟩).1 = .error .assertion := rfl
  refine ⟨h, ?_⟩
  intro msg
  rw [h]
  simp

/-! ## The build without TLS support -/

/-- Without TLS support `prepare_options` attaches no TLS policy. -/
theorem prepare_options_no_ssl (settings : Settings_impl) (secure : Bool)
    (hu : settings.has_option .USER = true) (ht : settings.well_typed = true) :
    ∃ (M : Settings_impl.SSL_mode) (opts : TCPIP_options),
      prepare_mode settings = .ok M.code ∧
      prepare_options false settings secure = .ok opts ∧ opts.tls = none ∧
      (M = .DISABLED → opts.auth_method = .DEFAULT) ∧
      (M ≠ .DISABLED → settings.has_option .AUTH = false →
        opts.auth_method = if secure then .PLAIN else .MYSQL41) := by
  obtain ⟨o, ho, htls, hauth⟩ := prepare_basic_ok settings hu ht
  obtain ⟨M, hM, _, _, _⟩ := prepare_mode_ok settings ht
  by_cases hd : M = .DISABLED
  · subst hd
    refine ⟨.DISABLED, o, hM, ?_, htls, fun _ => hauth, fun h => absurd rfl h⟩
    simp [prepare_options, ho, hM, bind, Except.bind, pure, Except.pure]
  · have hcode : ¬ (Settings_impl.SSL_mode.DISABLED.code = M.code) := by
      cases M <;> simp [Settings_impl.SSL_mode.code] at hd ⊢
    obtain ⟨o1, ho1, htls1, hauth1⟩ := prepare_auth_ok settings secure o ht
    refine ⟨M, o1, hM, ?_, by rw [htls1, htls], fun h => absurd h hd, fun _ ha => hauth1 ha⟩
    simp [prepare_options, ho, hM, hcode, ho1, bind, Except.bind]

/-- C14 (amended): in the build where TLS support is compiled out,
`prepare_options` throws no error on account of the TLS mode: on every
well-typed option store with `USER` it succeeds, whatever the resolved mode
(`DISABLED` or not), and attaches no TLS policy. -/
theorem C14_no_ssl_build_accepts (settings : Settings_impl) (secure : Bool)
    (hu : settings.has_option .USER = true) (ht : settings.well_typed = true) :
    ∃ (M : Settings_impl.SSL_mode) (opts : TCPIP_options),
      prepare_mode settings = .ok M.code ∧
      prepare_options false settings secure = .ok opts ∧ opts.tls = none := by
  obtain ⟨M, opts, h1, h2, h3, _, _⟩ := prepare_options_no_ssl settings secure hu ht
  exact ⟨M, opts, h1, h2, h3⟩

/-- Witness of C14 (amended) on the store `USER u`, whose mode resolves to
`REQUIRED`. -/
theorem C14_no_ssl_build_accepts_witness :
    prepare_mode user_only = .ok Settings_impl.SSL_mode.REQUIRED.code ∧
    ∃ (M : Settings_impl.SSL_mode) (opts : TCPIP_options),
      prepare_mode user_only = .ok M.code ∧
      prepare_options false user_only false = .ok opts ∧ opts.tls = none :=
  ⟨rfl, C14_no_ssl_build_accepts user_only false (by decide) (by decide)⟩

/-- C14 as stated fails: without TLS support, on the store `USER u` the mode
resolves to `REQUIRED` and `prepare_options` returns options. -/
theorem C14_counterexample :
    prepare_mode user_only = .ok Settings_impl.SSL_mode.REQUIRED.code ∧
    prepare_options false user_only false = .ok ⟨"u", none, none, none, .MYSQL41⟩ :=
  ⟨rfl, rfl⟩

/-- C16, the code at the failing inputs: with `SSL_MODE DISABLED` the build with
TLS support sets the method (`MYSQL41` by default, `PLAIN` when `AUTH PLAIN` is
set), and the build without it leaves the method of the fresh options,
`DEFAULT`, in both cases. -/
theorem C16_no_ssl_build_skips_auth :
    prepare_options true disabled_store false =
      .ok ⟨"u", none, none, some ⟨.DISABLED, none, none⟩, .MYSQL41⟩ ∧
    prepare_options false disabled_store false = .ok ⟨"u", none, none, none, .DEFAULT⟩ ∧
    prepare_options true disabled_plain_store false =
      .ok ⟨"u", none, none, some ⟨.DISABLED, none, none⟩, .PLAIN⟩ ∧
    prepare_options false disabled_plain_store false = .ok ⟨"u", none, none, none, .DEFAULT⟩ :=
  ⟨rfl, rfl, rfl, rfl⟩

/-! ## What the cursor steps over -/

theorem Settings_impl.add_host_name_ok (self : Settings_impl)
    (it i1 : Settings_impl.iterator) (host : String)
    (h : self.add_host_name it = .ok (host, i1)) :
    (∃ v, it = (.HOST, v) :: i1) ∨ (i1 = it ∧ ∃ v rest, it = (.PORT, v) :: rest) := by
  unfold Settings_impl.add_host_name at h
  split at h
  · simp at h
  · rename_i k v rest
    split at h
    · rename_i hk
      split at h
      · simp only [Except.ok.injEq, Prod.mk.injEq] at h
        right
        exact ⟨h.2.symm, v, rest, by rw [hk]⟩
      · simp at h
    · split at h
      · rename_i hk
        split at h
        · simp only [Except.ok.injEq, Prod.mk.injEq] at h
          left
          exact ⟨v, by rw [hk, h.2]⟩
        · simp at h
      · simp at h

theorem Settings_impl.add_host_port_ok (it i2 : Settings_impl.iterator) (port : Nat)
    (h : Settings_impl.add_host_port it = .ok (port, i2)) :
    (∃ v, it = (.PORT, v) :: i2) ∨ (i2 = it ∧ ∀ v rest, it ≠ (.PORT, v) :: rest) := by
  unfold Settings_impl.add_host_port at h
  split at h
  · rename_i v rest
    split at h
    · simp only [Except.ok.injEq, Prod.mk.injEq] at h
      left
      exact ⟨v, by rw [h.2]⟩
    · simp at h
  · rename_i hne
    simp only [Except.ok.injEq, Prod.mk.injEq] at h
    right
    exact ⟨h.2.symm, hne⟩

theorem Settings_impl.add_host_prio_ok (it i3 : Settings_impl.iterator) (prio p : Int)
    (h : Settings_impl.add_host_prio it prio = .ok (p, i3)) :
    (∃ v, it = (.PRIORITY, v) :: i3) ∨ i3 = it := by
  unfold Settings_impl.add_host_prio at h
  split at h
  · split at h
    · rename_i v rest
      split at h
      · simp only [Except.ok.injEq, Prod.mk.injEq] at h
        left
        exact ⟨v, by rw [h.2]⟩
      · simp at h
    · simp at h
  · simp only [Except.ok.injEq, Prod.mk.injEq] at h
    right
    exact h.2.symm

/-- When `add_host` returns, the new cursor is the old one less a prefix of one
to three entries, each a `HOST`, `PORT` or `PRIORITY` entry. -/
theorem Settings_impl.add_host_consumes (with_ssl : Bool) (self : Settings_impl)
    (it it1 : Settings_impl.iterator) (prio : Int) (opts opts1 : TCPIP_options)
    (src src1 : Multi_source)
    (h : self.add_host with_ssl it prio opts src = .ok (it1, opts1, src1)) :
    ∃ pre, it = pre ++ it1 ∧ 1 ≤ pre.length ∧ pre.length ≤ 3 ∧
      ∀ e ∈ pre, e.1 = .HOST ∨ e.1 = .PORT ∨ e.1 = .PRIORITY := by
  unfold Settings_impl.add_host at h
  cases hn : self.add_host_name it with
  | error e => simp [hn] at h
  | ok r1 =>
    obtain ⟨host, i1⟩ := r1
    simp only [hn] at h
    cases hp : Settings_impl.add_host_port i1 with
    | error e => simp [hp] at h
    | ok r2 =>
      obtain ⟨port, i2⟩ := r2
      simp only [hp] at h
      cases hq : Settings_impl.add_host_prio i2 prio with
      | error e => simp [hq] at h
      | ok r3 =>
        obtain ⟨prio1, i3⟩ := r3
        simp only [hq] at h
        split at h
        · simp at h
        · split at h
          · simp at h
          · simp only [Except.ok.injEq, Prod.mk.injEq] at h
            obtain ⟨hi, _, _⟩ := h
            subst hi
            have h1 := self.add_host_name_ok it i1 host hn
            have h2 := Settings_impl.add_host_port_ok i1 i2 port hp
            have h3 := Settings_impl.add_host_prio_ok i2 i3 prio prio1 hq
            rcases h1 with ⟨v1, h1⟩ | ⟨h1, v1, r1, h1p⟩
            · rcases h2 with ⟨v2, h2⟩ | ⟨h2, _⟩
              · rcases h3 with ⟨v3, h3⟩ | h3
                · exact ⟨[(.HOST, v1), (.PORT, v2), (.PRIORITY, v3)],
                    by clear hn hp hq; subst_vars; rfl, by simp, by simp, by simp⟩
                · exact ⟨[(.HOST, v1), (.PORT, v2)], by clear hn hp hq; subst_vars; rfl, by simp,
                    by simp, by simp⟩
              · rcases h3 with ⟨v3, h3⟩ | h3
                · exact ⟨[(.HOST, v1), (.PRIORITY, v3)], by clear hn hp hq; subst_vars; rfl, by simp,
                    by simp, by simp⟩
                · exact ⟨[(.HOST, v1)], by clear hn hp hq; subst_vars; rfl, by simp, by simp, by simp⟩
            · subst h1
              rcases h2 with ⟨v2, h2⟩ | ⟨_, h2⟩
              · rcases h3 with ⟨v3, h3⟩ | h3
                · exact ⟨[(.PORT, v2), (.PRIORITY, v3)], by clear hn hp hq h1p; subst_vars; rfl, by simp,
                    by simp, by simp⟩
                · exact ⟨[(.PORT, v2)], by clear hn hp hq h1p; subst_vars; rfl, by simp, by simp, by simp⟩
              · exact absurd h1p (h2 v1 r1)

/-! ## Failures of the program are not the bound of the model -/

theorem Settings_impl.get_error (self : Settings_impl) (opt : Settings_impl.Option)
    (e : Failure) (h : self.get opt = .error e) : e ≠ .out_of_fuel := by
  unfold Settings_impl.get at h
  split at h
  · simp at h
  · simp only [Except.error.injEq] at h
    subst h
    simp

theorem get_auth_error (m : Nat) (e : Failure) (h : get_auth m = .error e) :
    e ≠ .out_of_fuel := by
  unfold get_auth at h
  split at h
  · simp at h
  · split at h
    · simp at h
    · split at h
      · simp at h
      · simp only [Except.error.injEq] at h
        subst h
        simp

theorem get_ssl_mode_error (m : Nat) (e : Failure) (h : get_ssl_mode m = .error e) :
    e ≠ .out_of_fuel := by
  unfold get_ssl_mode at h
  split at h
  · simp at h
  · split at h
    · simp at h
    · split at h
      · simp at h
      · split at h
        · simp at h
        · simp only [Except.error.injEq] at h
          subst h
          simp

/-- Reading a string-valued option fails only with a thrown error. -/
theorem Settings_impl.read_string_error (self : Settings_impl) (opt : Settings_impl.Option)
    (e : Failure)
    (h : (do let v ← self.get opt; v.get_string : Except Failure String) = .error e) :
    e ≠ .out_of_fuel := by
  simp only [bind, Except.bind] at h
  cases hg : self.get opt with
  | error e1 =>
    simp only [hg, Except.error.injEq] at h
    subst h
    exact self.get_error opt _ hg
  | ok v =>
    simp only [hg] at h
    exact v.get_string_error e h

/-- Reading an integer-valued option fails only with a thrown error. -/
theorem Settings_impl.read_uint_error (self : Settings_impl) (opt : Settings_impl.Option)
    (e : Failure)
    (h : (do let v ← self.get opt; v.get_uint : Except Failure Nat) = .error e) :
    e ≠ .out_of_fuel := by
  simp only [bind, Except.bind] at h
  cases hg : self.get opt with
  | error e1 =>
    simp only [hg, Except.error.injEq] at h
    subst h
    exact self.get_error opt _ hg
  | ok v =>
    simp only [hg] at h
    exact v.get_uint_error e h

theorem prepare_basic_error (settings : Settings_impl) (e : Failure)
    (h : prepare_basic settings = .error e) : e ≠ .out_of_fuel := by
  unfold prepare_basic at h
  split at h
  · simp only [Except.error.injEq] at h
    subst h
    simp
  · simp only [bind, Except.bind, pure, Except.pure] at h
    cases hu : (do let v ← settings.get .USER; v.get_string : Except Failure String) with
    | error e1 =>
      have := settings.read_string_error .USER e1 hu
      simp only [bind, Except.bind] at hu
      cases hg : settings.get .USER with
      | error e2 =>
        simp only [hg] at h hu
        simp only [Except.error.injEq] at h hu
        rw [← h, hu]; exact this
      | ok v =>
        simp only [hg] at h hu
        rw [hu] at h
        simp only [Except.error.injEq] at h
        rw [← h]; exact this
    | ok user =>
      simp only [bind, Except.bind] at hu
      cases hg : settings.get .USER with
      | error e2 => simp [hg] at hu
      | ok v =>
        simp only [hg] at h hu
        rw [hu] at h
        simp only at h
        by_cases hp : settings.has_option .PWD = true
        · simp only [hp, if_true] at h
          cases hgp : settings.get .PWD with
          | error e2 =>
            simp only [hgp, Except.error.injEq] at h
            rw [← h]; exact settings.get_error _ _ hgp
          | ok vp =>
            simp only [hgp] at h
            cases hsp : vp.get_string with
            | error e2 =>
              simp only [hsp, Except.error.injEq] at h
              rw [← h]; exact vp.get_string_error _ hsp
            | ok pw =>
              simp only [hsp] at h
              by_cases hd : settings.has_option .DB = true
              · simp only [hd, if_true] at h
                cases hgd : settings.get .DB with
                | error e2 =>
                  simp only [hgd, Except.error.injEq] at h
                  rw [← h]; exact settings.get_error _ _ hgd
                | ok vd =>
                  simp only [hgd] at h
                  cases hsd : vd.get_string with
                  | error e2 =>
                    simp only [hsd, Except.error.injEq] at h
                    rw [← h]; exact vd.get_string_error _ hsd
                  | ok db => simp [hsd] at h
              · simp [hd] at h
        · simp only [hp] at h
          by_cases hd : settings.has_option .DB = true
          · simp only [hd, if_true] at h
            cases hgd : settings.get .DB with
            | error e2 =>
              simp [hgd] at h
              rw [← h]; exact settings.get_error _ _ hgd
            | ok vd =>
              simp only [hgd] at h
              cases hsd : vd.get_string with
              | error e2 =>
                simp [hsd] at h
                rw [← h]; exact vd.get_string_error _ hsd
              | ok db => simp [hsd] at h
          · simp [hd] at h

theorem prepare_mode_error (settings : Settings_impl) (e : Failure)
    (h : prepare_mode settings = .error e) : e ≠ .out_of_fuel := by
  unfold prepare_mode at h
  split at h
  · simp only [bind, Except.bind, pure, Except.pure] at h
    cases hg : settings.get .SSL_MODE with
    | error e2 =>
      simp only [hg, Except.error.injEq] at h
      rw [← h]; exact settings.get_error _ _ hg
    | ok v =>
      simp only [hg] at h
      cases hv : v.get_uint with
      | error e2 =>
        simp only [hv, Except.error.injEq] at h
        rw [← h]; exact v.get_uint_error _ hv
      | ok n => simp [hv] at h
  · split at h
    · simp [pure, Except.pure] at h
    · simp [pure, Except.pure] at h

theorem prepare_auth_error (settings : Settings_impl) (secure : Bool) (opts : TCPIP_options)
    (e : Failure) (h : prepare_auth settings secure opts = .error e) : e ≠ .out_of_fuel := by
  unfold prepare_auth at h
  split at h
  · simp only [bind, Except.bind, pure, Except.pure] at h
    cases hg : settings.get .AUTH with
    | error e2 =>
      simp only [hg, Except.error.injEq] at h
      rw [← h]; exact settings.get_error _ _ hg
    | ok v =>
      simp only [hg] at h
      cases hv : v.get_uint with
      | error e2 =>
        simp only [hv, Except.error.injEq] at h
        rw [← h]; exact v.get_uint_error _ hv
      | ok n =>
        simp only [hv] at h
        cases ha : get_auth (to_unsigned n) with
        | error e2 =>
          simp only [ha, Except.error.injEq] at h
          rw [← h]; exact get_auth_error _ _ ha
        | ok a => simp [ha] at h
  · simp [pure, Except.pure] at h

/-- A failure of `prepare_options` is a thrown error or a failed assertion. -/
theorem prepare_options_error (with_ssl : Bool) (settings : Settings_impl) (secure : Bool)
    (e : Failure) (h : prepare_options with_ssl settings secure = .error e) :
    e ≠ .out_of_fuel := by
  unfold prepare_options at h
  simp only [bind, Except.bind] at h
  cases hb : prepare_basic settings with
  | error e1 =>
    simp only [hb, Except.error.injEq] at h
    rw [← h]; exact prepare_basic_error _ _ hb
  | ok o =>
    simp only [hb] at h
    cases hm : prepare_mode settings with
    | error e1 =>
      simp only [hm, Except.error.injEq] at h
      rw [← h]; exact prepare_mode_error _ _ hm
    | ok mode =>
      simp only [hm] at h
      split at h
      · split at h
        · exact prepare_auth_error _ _ _ _ h
        · cases hg : get_ssl_mode mode with
          | error e1 =>
            simp only [hg, Except.error.injEq] at h
            rw [← h]; exact get_ssl_mode_error _ _ hg
          | ok m =>
            simp only [hg] at h
            split at h
            · cases hca : settings.get .SSL_CA with
              | error e1 =>
                simp only [hca, Except.error.injEq] at h
                rw [← h]; exact settings.get_error _ _ hca
              | ok v =>
                simp only [hca] at h
                cases hs : v.get_string with
                | error e1 =>
                  simp only [hs, Except.error.injEq] at h
                  rw [← h]; exact v.get_string_error _ hs
                | ok ca =>
                  simp only [hs, pure, Except.pure] at h
                  exact prepare_auth_error _ _ _ _ h
            · simp only [pure, Except.pure] at h
              exact prepare_auth_error _ _ _ _ h
      · split at h
        · simp [pure, Except.pure] at h
        · exact prepare_auth_error _ _ _ _ h

/-- A failure of `get_data_source` is a failure of the program: a thrown error
or a failed assertion. -/
theorem Settings_impl.get_data_source_error (with_ssl : Bool) (self : Settings_impl)
    (src : Multi_source) (e : Failure)
    (h : (self.get_data_source with_ssl src).1 = .error e) : e ≠ .out_of_fuel := by
  unfold Settings_impl.get_data_source at h
  cases hp : prepare_options with_ssl self
      (self.m_data.m_sock && (1 == self.m_data.m_host_cnt)) with
  | error e1 =>
    simp only [hp, Except.error.injEq] at h
    rw [← h]; exact prepare_options_error _ _ _ _ hp
  | ok opts =>
    simp only [hp] at h
    have hfuel := Settings_impl.scan_fuel_enough with_ssl self self.m_data.m_options.length
      self.m_data.m_options (if self.m_data.m_user_priorities then -1 else 100) opts
      src.clear (le_refl _)
    generalize Settings_impl.scan with_ssl self self.m_data.m_options.length
      self.m_data.m_options (if self.m_data.m_user_priorities then -1 else 100) opts
      src.clear = r at h hfuel
    obtain ⟨r1, r2⟩ := r
    cases r1 with
    | error e1 =>
      simp only [Except.error.injEq] at h
      simp only [ne_eq, Except.error.injEq] at hfuel
      rw [← h]; exact hfuel
    | ok u =>
      simp only at h
      split at h
      · simp at h
      · simp only [Except.error.injEq] at h
        rw [← h]; simp

/-- The scan cannot reach the end of a store that has a `SOCKET` entry ahead
of the cursor. -/
theorem Settings_impl.scan_socket (with_ssl : Bool) (self : Settings_impl) :
    ∀ (fuel : Nat) (it : Settings_impl.iterator) (prio : Int) (opts : TCPIP_options)
      (src : Multi_source), (∃ e ∈ it, e.1 = .SOCKET) →
      (Settings_impl.scan with_ssl self fuel it prio opts src).1 ≠ .ok () := by
  intro fuel
  induction fuel with
  | zero =>
    intro it prio opts src hs
    cases it with
    | nil => simp at hs
    | cons e rest => simp [Settings_impl.scan]
  | succ fuel ih =>
    intro it prio opts src hs
    cases it with
    | nil => simp at hs
    | cons e rest =>
      obtain ⟨k, v⟩ := e
      have hhost : ∀ k1, (k1 = .HOST ∨ k1 = .PORT) → k = k1 →
          (match self.add_host with_ssl ((k1, v) :: rest) prio opts src with
          | .error e => ((.error e : Except Failure Unit), src)
          | .ok (it1, opts1, src1) =>
            Settings_impl.scan with_ssl self fuel it1 (prio - 1) opts1 src1).1 ≠ .ok () := by
        intro k1 _ hk
        subst hk
        cases hadd : self.add_host with_ssl ((k, v) :: rest) prio opts src with
        | error e => simp
        | ok res =>
          obtain ⟨it1, opts1, src2⟩ := res
          simp only
          obtain ⟨pre, hpre, _, _, hkeys⟩ :=
            self.add_host_consumes with_ssl _ _ _ _ _ _ _ hadd
          apply ih
          obtain ⟨e, he, hes⟩ := hs
          rw [hpre, List.mem_append] at he
          rcases he with he | he
          · have := hkeys e he
            rw [hes] at this
            simp at this
          · exact ⟨e, he, hes⟩
      cases k
      case HOST =>
        simp only [Settings_impl.scan]
        exact hhost .HOST (Or.inl rfl) rfl
      case PORT =>
        simp only [Settings_impl.scan]
        split
        · exact hhost .PORT (Or.inr rfl) rfl
        · simp
      case SOCKET =>
        simp [Settings_impl.scan, Settings_impl.add_socket]
      all_goals
        simp only [Settings_impl.scan]
        apply ih
        obtain ⟨e, he, hes⟩ := hs
        simp only [List.mem_cons] at he
        rcases he with he | he
        · rw [he] at hes
          simp at hes
        · exact ⟨e, he, hes⟩

/-- C15: for every option store that contains a `SOCKET` entry, whatever its
other entries and wherever the `SOCKET` entry stands, in either build,
`get_data_source` fails (by a thrown error or a failed assertion) and does
not return an endpoint list. -/
theorem C15_socket_never_accepted (with_ssl : Bool) (self : Settings_impl)
    (src : Multi_source) (hs : ∃ e ∈ self.m_data.m_options, e.1 = .SOCKET) :
    ∃ f, (self.get_data_source with_ssl src).1 = .error f ∧ f ≠ .out_of_fuel := by
  have hne : (self.get_data_source with_ssl src).1 ≠ .ok () := by
    intro h
    unfold Settings_impl.get_data_source at h
    cases hp : prepare_options with_ssl self
        (self.m_data.m_sock && (1 == self.m_data.m_host_cnt)) with
    | error e1 => simp [hp] at h
    | ok opts =>
      simp only [hp] at h
      have hsock := Settings_impl.scan_socket with_ssl self self.m_data.m_options.length
        self.m_data.m_options (if self.m_data.m_user_priorities then -1 else 100) opts
        src.clear hs
      generalize Settings_impl.scan with_ssl self self.m_data.m_options.length
        self.m_data.m_options (if self.m_data.m_user_priorities then -1 else 100) opts
        src.clear = r at h hsock
      obtain ⟨r1, r2⟩ := r
      cases r1 with
      | error e1 => simp at h
      | ok u => exact absurd rfl hsock
  cases hr : (self.get_data_source with_ssl src).1 with
  | ok u => exact absurd hr hne
  | error f => exact ⟨f, rfl, self.get_data_source_error with_ssl src f hr⟩

/-- Witness of C15 on the store `USER u, HOST a, SOCKET /tmp/mysqlx.sock`: the
scan adds `a` and then fails the assertion of `add_socket`. -/
theorem C15_socket_never_accepted_witness :
    (Settings_impl.get_data_source true
      ⟨⟨[(.USER, .str "u"), (.HOST, .str "a"), (.SOCKET, .str "/tmp/mysqlx.sock")], 1,
        false, true⟩⟩ ⟨[]⟩).1 = .error .assertion ∧
    ∃ f, (Settings_impl.get_data_source true
      ⟨⟨[(.USER, .str "u"), (.HOST, .str "a"), (.SOCKET, .str "/tmp/mysqlx.sock")], 1,
        false, true⟩⟩ ⟨[]⟩).1 = .error f ∧ f ≠ .out_of_fuel :=
  ⟨rfl, C15_socket_never_accepted true _ ⟨[]⟩
    ⟨(.SOCKET, .str "/tmp/mysqlx.sock"), by decide, rfl⟩⟩

/-! ## Endpoints of a grouped store -/

/-- When `add_host` returns on the entries of a group, the cursor is behind the
group and the endpoint of the group was added. -/
theorem Settings_impl.add_host_group_ok (with_ssl : Bool) (self : Settings_impl)
    (g : Host_group) (rest : List Item) (it1 : Settings_impl.iterator) (prio : Int)
    (opts opts1 : TCPIP_options) (src src1 : Multi_source)
    (h : self.add_host with_ssl (g.entries ++ store_of rest) prio opts src =
      .ok (it1, opts1, src1)) :
    it1 = store_of rest ∧ ∃ p, src1 = src.add g.ds opts1 p := by
  have hport := Settings_impl.add_host_port_group g (store_of rest)
    (priority_entries_head g (store_of rest) (fun v r => (store_of_head rest v r).1))
  unfold Settings_impl.add_host at h
  rw [Settings_impl.add_host_name_group] at h
  simp only [hport] at h
  cases hq : Settings_impl.add_host_prio (g.priority_entries ++ store_of rest) prio with
  | error e => simp [hq] at h
  | ok r3 =>
    obtain ⟨prio1, i3⟩ := r3
    simp only [hq] at h
    split at h
    · simp at h
    · split at h
      · simp at h
      · rename_i hnp
        simp only [Except.ok.injEq, Prod.mk.injEq] at h
        obtain ⟨hi, ho, hs⟩ := h
        subst hi
        rw [ho] at hs
        have hds : (⟨g.host, g.ds.port⟩ : TCPIP) = g.ds := rfl
        rw [hds] at hs
        refine ⟨?_, int_to_ushort prio1, hs.symm⟩
        cases hpri : g.priority with
        | none =>
          have hpe : g.priority_entries = [] := by simp [Host_group.priority_entries, hpri]
          rw [hpe, List.nil_append] at hq
          rcases Settings_impl.add_host_prio_ok _ _ _ _ hq with ⟨v, hv⟩ | hv
          · exact absurd hv (store_of_head rest v i3).2
          · exact hv
        | some q =>
          have hpe : g.priority_entries = [(.PRIORITY, .uint q)] := by
            simp [Host_group.priority_entries, hpri]
          rw [hpe] at hq
          rcases Settings_impl.add_host_prio_ok _ _ _ _ hq with ⟨v, hv⟩ | hv
          · simp only [List.singleton_append, List.cons.injEq] at hv
            exact hv.2.symm
          · rw [hv] at hnp
            simp [Settings_impl.no_priority_here] at hnp

/-- When the scan of a grouped store reaches the end, it has added the
endpoints of the groups, one target for each, in store order. -/
theorem Settings_impl.scan_grouped_ds (with_ssl : Bool) (self : Settings_impl) :
    ∀ (items : List Item) (fuel : Nat) (prio : Int) (opts : TCPIP_options)
      (src src1 : Multi_source),
      Settings_impl.scan with_ssl self fuel (store_of items) prio opts src = (.ok (), src1) →
      src1.targets.map Target.ds = src.targets.map Target.ds ++
        (groups_of items).map Host_group.ds := by
  intro items
  induction items with
  | nil =>
    intro fuel prio opts src src1 h
    cases fuel <;> simp [store_of, Settings_impl.scan] at h <;> simp [groups_of, ← h]
  | cons i rest ih =>
    intro fuel prio opts src src1 h
    cases i with
    | global o =>
      cases fuel with
      | zero => simp [store_of, Item.entries, Settings_impl.scan] at h
      | succ fuel =>
        simp only [store_of, Item.entries, List.singleton_append, groups_of] at *
        rw [Settings_impl.scan_global] at h
        exact ih fuel prio opts src src1 h
    | host g =>
      cases fuel with
      | zero => simp [store_of, Item.entries, Host_group.entries, Settings_impl.scan] at h
      | succ fuel =>
        simp only [store_of, Item.entries, groups_of] at *
        rw [Settings_impl.scan_host] at h
        cases hadd : self.add_host with_ssl (g.entries ++ store_of rest) prio opts src with
        | error e => simp [hadd] at h
        | ok res =>
          obtain ⟨it1, opts1, src2⟩ := res
          simp only [hadd] at h
          obtain ⟨hit, p, hsrc⟩ := self.add_host_group_ok with_ssl g rest it1 prio opts opts1
            src src2 hadd
          subst hit
          rw [ih fuel (prio - 1) opts1 src2 src1 h, hsrc]
          simp [Multi_source.add]

/-- When `get_data_source` succeeds on a grouped store, the endpoints in the
connector are those of the groups, in store order. -/
theorem Settings_impl.get_data_source_grouped_ds (with_ssl : Bool) (items : List Item)
    (host_cnt : Nat) (user_priorities sock : Bool) (src src1 : Multi_source)
    (h : (settings_of items host_cnt user_priorities sock).get_data_source with_ssl src =
      (.ok (), src1)) :
    src1.targets.map Target.ds = (groups_of items).map Host_group.ds := by
  unfold Settings_impl.get_data_source at h
  cases hp : prepare_options with_ssl (settings_of items host_cnt user_priorities sock)
      ((settings_of items host_cnt user_priorities sock).m_data.m_sock &&
        (1 == (settings_of items host_cnt user_priorities sock).m_data.m_host_cnt)) with
  | error e => simp [hp] at h
  | ok opts =>
    simp only [hp] at h
    cases hs : Settings_impl.scan with_ssl (settings_of items host_cnt user_priorities sock)
        (settings_of items host_cnt user_priorities sock).m_data.m_options.length
        (settings_of items host_cnt user_priorities sock).m_data.m_options
        (if (settings_of items host_cnt user_priorities sock).m_data.m_user_priorities
          then -1 else 100) opts src.clear with
    | mk r src2 =>
      simp only [hs] at h
      cases r with
      | error e => simp at h
      | ok u =>
        simp only at h
        split at h
        · simp only [Prod.mk.injEq] at h
          rw [← h.2]
          have := Settings_impl.scan_grouped_ds with_ssl _ items _ _ _ _ _ hs
          simpa [Multi_source.clear] using this
        · simp at h

/-- C17: for a grouped option store with a `USER` entry, `k` `HOST` groups, no
`PRIORITY` entry and the user-priorities flag unset, `get_data_source`
succeeds if and only if `1 ≤ k ≤ 101`; with `k ≥ 102` the counter is below 0
at the 102nd group and the scan fails with the thrown error
"No priority specified for host ...". -/
theorem C17_auto_priority_limit (with_ssl : Bool) (items : List Item) (host_cnt : Nat)
    (sock : Bool) (src : Multi_source)
    (huser : ∃ u, Item.global (.USER u) ∈ items)
    (hnone : ∀ g ∈ groups_of items, g.priority = none) :
    (((settings_of items host_cnt false sock).get_data_source with_ssl src).1 = .ok () ↔
      1 ≤ (groups_of items).length ∧ (groups_of items).length ≤ 101) ∧
    (102 ≤ (groups_of items).length →
      ((settings_of items host_cnt false sock).get_data_source with_ssl src).1 =
        .error (.error "No priority specified for host ...")) := by
  obtain ⟨opts, fuel, hfuel, hrun⟩ := Settings_impl.get_data_source_grouped with_ssl items
    host_cnt false sock src (settings_of_has_user items host_cnt false sock huser)
  simp only [Bool.false_eq_true, if_false] at hrun
  rw [hrun]
  by_cases hk : (groups_of items).length ≤ 101
  · rw [Settings_impl.scan_auto with_ssl _ items fuel 100 opts ⟨[]⟩ hfuel hnone
      (by push_cast; omega) (by omega)]
    simp only [List.nil_append, Multi_source.size, auto_targets_length]
    constructor
    · by_cases h0 : 0 < (groups_of items).length
      · rw [if_pos h0]
        simp only [true_iff]
        omega
      · rw [if_neg h0]
        simp only [reduceCtorEq, false_iff, not_and]
        omega
    · intro h102
      omega
  · have hfail := Settings_impl.scan_auto_exhausted with_ssl
      (settings_of items host_cnt false sock) items fuel 100 opts ⟨[]⟩ hfuel hnone
      (by push_cast; omega) (by omega) (by omega)
    generalize Settings_impl.scan with_ssl (settings_of items host_cnt false sock) fuel
      (store_of items) 100 opts ⟨[]⟩ = r at hfail
    obtain ⟨r1, r2⟩ := r
    simp only at hfail
    subst hfail
    simp only [reduceCtorEq, false_iff, not_and, not_le, implies_true, and_true]
    intro _
    omega

/-- Witness of C17 on the store of two groups `HOST a, PORT 33060, HOST b,
PORT 33061, USER u`, which is accepted, and on the store of 102 groups, which
is refused. -/
theorem C17_auto_priority_limit_witness :
    ((settings_of two_hosts 2 false false).get_data_source true ⟨[]⟩).1 = .ok () ∧
    ((settings_of hosts_102 102 false false).get_data_source true ⟨[]⟩).1 =
      .error (.error "No priority specified for host ...") :=
  ⟨(C17_auto_priority_limit true two_hosts 2 false ⟨[]⟩ ⟨"u", by decide⟩
      (by decide)).1.mpr ⟨by decide, by decide⟩,
    (C17_auto_priority_limit true hosts_102 102 false ⟨[]⟩ ⟨"u", by simp [hosts_102]⟩
      (by
        intro g hg
        have : groups_of hosts_102 = List.replicate 102 ⟨"h", none, none⟩ := rfl
        rw [this] at hg
        rw [List.eq_of_mem_replicate hg])).2 (by
        have : groups_of hosts_102 = List.replicate 102 ⟨"h", none, none⟩ := rfl
        rw [this]
        simp)⟩

theorem Host_group.ds_port (g : Host_group) :
    g.ds.port = match g.port with
      | some v => v % 65536
      | none => DEFAULT_MYSQLX_PORT := by
  cases h : g.port <;> simp [Host_group.ds, h, to_ushort]

/-- C19: the port of a produced target is the `PORT` value reduced modulo
`2^16`: whenever `get_data_source` succeeds on a grouped store, each target has
the port `v mod 65536` of its group's `PORT v` (the default port without
one); this equals `v` exactly when `v ≤ 65535`; and a store `HOST h, PORT v,
USER u` is accepted for every `v`, however large. -/
theorem C19_port_wraps (with_ssl : Bool) (items : List Item) (host_cnt : Nat)
    (user_priorities sock : Bool) (src src1 : Multi_source)
    (h : (settings_of items host_cnt user_priorities sock).get_data_source with_ssl src =
      (.ok (), src1)) :
    src1.targets.map (fun t => t.ds.port) =
      (groups_of items).map (fun g => match g.port with
        | some v => v % 65536
        | none => DEFAULT_MYSQLX_PORT) ∧
    (∀ v : Nat, v % 65536 = v ↔ v ≤ 65535) ∧
    (∀ (hn u : String) (v : Nat), ∃ src2,
      (settings_of [.host ⟨hn, some v, none⟩, .global (.USER u)] host_cnt false
        sock).get_data_source with_ssl src = (.ok (), src2) ∧
      src2.targets.map (fun t => t.ds.port) = [v % 65536]) := by
  refine ⟨?_, ?_, ?_⟩
  · have hds := Settings_impl.get_data_source_grouped_ds with_ssl items host_cnt
      user_priorities sock src src1 h
    have hmap := congrArg (List.map TCPIP.port) hds
    simp only [List.map_map] at hmap
    rw [show (fun t : Target => t.ds.port) = TCPIP.port ∘ Target.ds from rfl, hmap]
    apply List.map_congr_left
    intro g _
    exact g.ds_port
  · intro v
    constructor
    · intro hv
      have := Nat.mod_lt v (show 0 < 65536 by decide)
      omega
    · intro hv
      exact Nat.mod_eq_of_lt (by omega)
  · intro hn u v
    obtain ⟨opts, fuel, hfuel, hrun⟩ := Settings_impl.get_data_source_grouped with_ssl
      [.host ⟨hn, some v, none⟩, .global (.USER u)] host_cnt false sock src
      (settings_of_has_user _ host_cnt false sock ⟨u, by simp⟩)
    simp only [Bool.false_eq_true, if_false] at hrun
    rw [Settings_impl.scan_auto with_ssl _ _ fuel 100 opts ⟨[]⟩ hfuel
      (by simp [groups_of]) (by simp [groups_of]) (by omega)] at hrun
    refine ⟨_, hrun, ?_⟩
    simp [groups_of, auto_targets, Host_group.target, Host_group.ds, to_ushort]

/-- Witness of C19 on the store `HOST h, PORT 70000, USER u`: the port of the
target is 4464. -/
theorem C19_port_wraps_witness :
    ((settings_of wide_port 1 false false).get_data_source true ⟨[]⟩).1 = .ok () ∧
    ((settings_of wide_port 1 false false).get_data_source true ⟨[]⟩).2.targets.map
      (fun t => t.ds.port) = [4464] ∧
    ((settings_of wide_port 1 false false).get_data_source true ⟨[]⟩).2.targets.map
      (fun t => t.ds.port) =
      (groups_of wide_port).map (fun g => match g.port with
        | some v => v % 65536
        | none => DEFAULT_MYSQLX_PORT) :=
  ⟨rfl, rfl, (C19_port_wraps true wide_port 1 false false ⟨[]⟩
    ((settings_of wide_port 1 false false).get_data_source true ⟨[]⟩).2 rfl).1⟩

/-! ## Termination of the scan -/

/-- One more iteration than the cursor has entries left changes nothing. -/
theorem Settings_impl.scan_fuel_succ (with_ssl : Bool) (self : Settings_impl) :
    ∀ (fuel : Nat) (it : Settings_impl.iterator) (prio : Int) (opts : TCPIP_options)
      (src : Multi_source), it.length ≤ fuel →
      Settings_impl.scan with_ssl self (fuel + 1) it prio opts src =
        Settings_impl.scan with_ssl self fuel it prio opts src := by
  intro fuel
  induction fuel with
  | zero =>
    intro it prio opts src hlen
    cases it with
    | nil => simp [Settings_impl.scan]
    | cons e rest => simp at hlen
  | succ fuel ih =>
    intro it prio opts src hlen
    cases it with
    | nil => simp [Settings_impl.scan]
    | cons e rest =>
      obtain ⟨k, v⟩ := e
      have hrest : rest.length ≤ fuel := by simpa using hlen
      have hhost : ∀ k1,
          (match self.add_host with_ssl ((k1, v) :: rest) prio opts src with
          | .error e => ((.error e : Except Failure Unit), src)
          | .ok (it1, opts1, src1) =>
            Settings_impl.scan with_ssl self (fuel + 1) it1 (prio - 1) opts1 src1) =
          (match self.add_host with_ssl ((k1, v) :: rest) prio opts src with
          | .error e => ((.error e : Except Failure Unit), src)
          | .ok (it1, opts1, src1) =>
            Settings_impl.scan with_ssl self fuel it1 (prio - 1) opts1 src1) := by
        intro k1
        cases hadd : self.add_host with_ssl ((k1, v) :: rest) prio opts src with
        | error e => rfl
        | ok res =>
          obtain ⟨it1, opts1, src2⟩ := res
          simp only
          have := (self.add_host_advances with_ssl _ _ _ _ _ _ _ hadd).1
          exact ih it1 (prio - 1) opts1 src2 (by simp at this; omega)
      cases k
      case HOST =>
        simp only [Settings_impl.scan]
        exact hhost .HOST
      case PORT =>
        simp only [Settings_impl.scan]
        split
        · exact hhost .PORT
        · rfl
      case SOCKET =>
        simp [Settings_impl.scan, Settings_impl.add_socket]
      all_goals
        simp only [Settings_impl.scan]
        exact ih rest prio opts src hrest

/-- The result of the scan does not depend on the bound, once the bound is
the number of entries left. -/
theorem Settings_impl.scan_fuel_irrelevant (with_ssl : Bool) (self : Settings_impl)
    (it : Settings_impl.iterator) (prio : Int) (opts : TCPIP_options) (src : Multi_source) :
    ∀ (fuel : Nat), it.length ≤ fuel →
      Settings_impl.scan with_ssl self fuel it prio opts src =
        Settings_impl.scan with_ssl self it.length it prio opts src := by
  intro fuel
  induction fuel with
  | zero =>
    intro h
    have : it.length = 0 := by omega
    rw [this]
  | succ fuel ih =>
    intro h
    by_cases hlt : it.length ≤ fuel
    · rw [Settings_impl.scan_fuel_succ with_ssl self fuel it prio opts src hlt]
      exact ih hlt
    · have : it.length = fuel + 1 := by omega
      rw [this]

/-- C18: the endpoint scan terminates on every finite option store: run for
as many iterations as entries are left, or for more, it gives the same result
and never stops for lack of iterations; a call of `add_host` that returns has
moved the cursor forward over one to three entries of the store; and each
iteration either fails, leaving the connector as it is, or continues from a
cursor further on: behind a `HOST` or `PORT` group (one to three entries), or
one entry on at any other option than `SOCKET`, at which it fails. -/
theorem C18_scan_terminates (with_ssl : Bool) (self : Settings_impl) :
    (∀ (fuel : Nat) (it : Settings_impl.iterator) (prio : Int) (opts : TCPIP_options)
      (src : Multi_source), it.length ≤ fuel →
      Settings_impl.scan with_ssl self fuel it prio opts src =
        Settings_impl.scan with_ssl self it.length it prio opts src ∧
      (Settings_impl.scan with_ssl self it.length it prio opts src).1 ≠
        .error .out_of_fuel) ∧
    (∀ (it it1 : Settings_impl.iterator) (prio : Int) (opts opts1 : TCPIP_options)
      (src src1 : Multi_source),
      self.add_host with_ssl it prio opts src = .ok (it1, opts1, src1) →
      ∃ pre, it = pre ++ it1 ∧ 1 ≤ pre.length ∧ pre.length ≤ 3) ∧
    (∀ (fuel : Nat) (k : Settings_impl.Option) (v : Value) (rest : Settings_impl.iterator)
      (prio : Int) (opts : TCPIP_options) (src : Multi_source),
      (k ≠ .HOST → k ≠ .PORT → k ≠ .SOCKET →
        Settings_impl.scan with_ssl self (fuel + 1) ((k, v) :: rest) prio opts src =
          Settings_impl.scan with_ssl self fuel rest prio opts src) ∧
      (k = .SOCKET →
        Settings_impl.scan with_ssl self (fuel + 1) ((k, v) :: rest) prio opts src =
          (.error .assertion, src)) ∧
      (k = .HOST ∨ k = .PORT →
        (∃ e, e ≠ .out_of_fuel ∧
          Settings_impl.scan with_ssl self (fuel + 1) ((k, v) :: rest) prio opts src =
            (.error e, src)) ∨
        (∃ it1 opts1 src1,
          Settings_impl.scan with_ssl self (fuel + 1) ((k, v) :: rest) prio opts src =
            Settings_impl.scan with_ssl self fuel it1 (prio - 1) opts1 src1 ∧
          ∃ pre, (k, v) :: rest = pre ++ it1 ∧ 1 ≤ pre.length ∧ pre.length ≤ 3))) := by
  refine ⟨?_, ?_, ?_⟩
  · intro fuel it prio opts src hlen
    exact ⟨Settings_impl.scan_fuel_irrelevant with_ssl self it prio opts src fuel hlen,
      Settings_impl.scan_fuel_enough with_ssl self it.length it prio opts src (le_refl _)⟩
  · intro it it1 prio opts opts1 src src1 h
    obtain ⟨pre, h1, h2, h3, _⟩ := self.add_host_consumes with_ssl _ _ _ _ _ _ _ h
    exact ⟨pre, h1, h2, h3⟩
  · intro fuel k v rest prio opts src
    have hhost : ∀ k1,
        (∃ e, e ≠ .out_of_fuel ∧
          (match self.add_host with_ssl ((k1, v) :: rest) prio opts src with
          | .error e => ((.error e : Except Failure Unit), src)
          | .ok (it1, opts1, src1) =>
            Settings_impl.scan with_ssl self fuel it1 (prio - 1) opts1 src1) =
          (.error e, src)) ∨
        (∃ it1 opts1 src1,
          (match self.add_host with_ssl ((k1, v) :: rest) prio opts src with
          | .error e => ((.error e : Except Failure Unit), src)
          | .ok (it1, opts1, src1) =>
            Settings_impl.scan with_ssl self fuel it1 (prio - 1) opts1 src1) =
            Settings_impl.scan with_ssl self fuel it1 (prio - 1) opts1 src1 ∧
          ∃ pre, (k1, v) :: rest = pre ++ it1 ∧ 1 ≤ pre.length ∧ pre.length ≤ 3) := by
      intro k1
      cases hadd : self.add_host with_ssl ((k1, v) :: rest) prio opts src with
      | error e => exact Or.inl ⟨e, self.add_host_error with_ssl _ _ _ _ e hadd, rfl⟩
      | ok res =>
        obtain ⟨it1, opts1, src2⟩ := res
        obtain ⟨pre, h1, h2, h3, _⟩ := self.add_host_consumes with_ssl _ _ _ _ _ _ _ hadd
        exact Or.inr ⟨it1, opts1, src2, rfl, pre, h1, h2, h3⟩
    refine ⟨?_, ?_, ?_⟩
    · intro h1 h2 h3
      cases k <;> first | exact absurd rfl h1 | exact absurd rfl h2 | exact absurd rfl h3 | rfl
    · intro hk
      subst hk
      rfl
    · intro hk
      rcases hk with hk | hk
      · subst hk
        simp only [Settings_impl.scan]
        exact hhost .HOST
      · subst hk
        simp only [Settings_impl.scan]
        split
        · exact hhost .PORT
        · exact Or.inl ⟨.assertion, by simp, rfl⟩

/-! ## Groups headed by a `PORT` entry -/

theorem store_of_globals_keys (gl : List Global) :
    ∀ e ∈ store_of (gl.map Item.global), e.1 ≠ .HOST ∧ e.1 ≠ .PORT ∧ e.1 ≠ .SOCKET := by
  induction gl with
  | nil => simp [store_of]
  | cons o rest ih =>
    intro e he
    simp only [List.map_cons, store_of, Item.entries, List.singleton_append,
      List.mem_cons] at he
    rcases he with he | he
    · subst he
      cases o <;> simp [Global.entry]
    · exact ih e he

theorem port_only_store_well_typed (pre post : List Global) (p : Nat) (q : Option Nat)
    (host_cnt : Nat) (user_priorities sock : Bool) :
    (⟨⟨port_only_store pre post p q, host_cnt, user_priorities, sock⟩⟩ :
      Settings_impl).well_typed = true := by
  unfold Settings_impl.well_typed port_only_store
  rw [List.all_eq_true]
  intro e he
  simp only [List.mem_append, List.mem_cons] at he
  rcases he with he | he | he | he
  · exact store_of_entry_ok _ e he
  · subst he; rfl
  · cases q with
    | none => simp [priority_entry] at he
    | some n =>
      simp only [priority_entry, List.mem_singleton] at he
      subst he; rfl
  · exact store_of_entry_ok _ e he

theorem port_only_store_has_user (pre post : List Global) (p : Nat) (q : Option Nat)
    (host_cnt : Nat) (user_priorities sock : Bool)
    (hu : ∃ u, Global.USER u ∈ pre ++ post) :
    (⟨⟨port_only_store pre post p q, host_cnt, user_priorities, sock⟩⟩ :
      Settings_impl).has_option .USER = true := by
  obtain ⟨u, hu⟩ := hu
  unfold Settings_impl.has_option port_only_store
  rw [List.any_eq_true]
  refine ⟨(.USER, .str u), ?_, by simp⟩
  simp only [List.mem_append, List.mem_cons] at hu ⊢
  rcases hu with hu | hu
  · left
    exact store_of_mem_global _ (.USER u) (List.mem_map.mpr ⟨_, hu, rfl⟩)
  · right; right; right
    exact store_of_mem_global _ (.USER u) (List.mem_map.mpr ⟨_, hu, rfl⟩)

/-- In a store without hosts, `add_host` at a `PORT` entry followed by the
entries its counter asks for adds the endpoint of `"localhost"`. -/
theorem add_host_port_only (with_ssl : Bool) (self : Settings_impl)
    (p : Nat) (q : Option Nat) (rest : List Item) (opts : TCPIP_options)
    (src : Multi_source) (hcnt : self.m_data.m_host_cnt = 0)
    (hq : ∀ n, q = some n → n ≤ 100) :
    self.add_host with_ssl
        ((.PORT, .uint p) :: (priority_entry q ++ store_of rest))
        (if q.isSome then -1 else 100) opts src =
      .ok (store_of rest, Settings_impl.add_host_cn with_ssl opts "localhost",
        src.add ⟨"localhost", p % 65536⟩ (Settings_impl.add_host_cn with_ssl opts "localhost")
          (q.getD 100)) := by
  have hnp := Settings_impl.no_priority_here_other (store_of rest)
    (fun v r => (store_of_head rest v r).2)
  cases q with
  | none =>
    simp [Settings_impl.add_host, Settings_impl.add_host_name, hcnt,
      Settings_impl.add_host_port, Value.get_uint, Settings_impl.add_host_prio, hnp,
      to_ushort, int_to_ushort, priority_entry]
  | some n =>
    have hn := hq n rfl
    have h1 := to_int_of_small n hn
    have h2 := int_to_ushort_to_int n hn
    simp [Settings_impl.add_host, Settings_impl.add_host_name, hcnt,
      Settings_impl.add_host_port, Value.get_uint, Settings_impl.add_host_prio, hnp,
      to_ushort, h1, h2, hn, priority_entry]
    rw [← h1, h2]

/-- The scan of a store whose only endpoint group is headed by `PORT`, with no
host counted: the target of `"localhost"` and the port is added. -/
theorem scan_port_only (with_ssl : Bool) (pre post : List Global) (p : Nat)
    (q : Option Nat) (sock : Bool) (opts : TCPIP_options)
    (hq : ∀ n, q = some n → n ≤ 100) :
    Settings_impl.scan with_ssl ⟨⟨port_only_store pre post p q, 0, q.isSome, sock⟩⟩
        (port_only_store pre post p q).length (port_only_store pre post p q)
        (if q.isSome then -1 else 100) opts ⟨[]⟩ =
      (.ok (), ⟨[⟨⟨"localhost", p % 65536⟩,
        Settings_impl.add_host_cn with_ssl opts "localhost", q.getD 100⟩]⟩) := by
  have hlen : (port_only_store pre post p q).length =
      (store_of (pre.map Item.global)).length +
        ((priority_entry q ++ store_of (post.map Item.global)).length + 1) := by
    simp [port_only_store]
  rw [hlen]
  unfold port_only_store
  rw [Settings_impl.scan_skip with_ssl _ _ _ _ _ _ _ (store_of_globals_keys pre)]
  simp only [Settings_impl.scan, if_true]
  rw [add_host_port_only with_ssl _ p q (post.map Item.global) opts ⟨[]⟩ rfl hq]
  simp only
  rw [Settings_impl.scan_fuel_irrelevant with_ssl _ _ _ _ _ _ (by simp),
    Settings_impl.scan_no_endpoints with_ssl _ _ _ _ _ (store_of_globals_keys post)]
  simp [Multi_source.add]

/-- The scan of a store whose first endpoint entry is a `PORT` entry, with
hosts counted: the assertion `0 == m_host_cnt` fails. -/
theorem scan_port_only_refused (with_ssl : Bool) (pre post : List Global) (p : Nat)
    (q : Option Nat) (host_cnt : Nat) (user_priorities sock : Bool) (prio : Int)
    (opts : TCPIP_options) (hcnt : 0 < host_cnt) :
    Settings_impl.scan with_ssl
        ⟨⟨port_only_store pre post p q, host_cnt, user_priorities, sock⟩⟩
        (port_only_store pre post p q).length (port_only_store pre post p q) prio opts ⟨[]⟩ =
      (.error .assertion, ⟨[]⟩) := by
  have hlen : (port_only_store pre post p q).length =
      (store_of (pre.map Item.global)).length +
        ((priority_entry q ++ store_of (post.map Item.global)).length + 1) := by
    simp [port_only_store]
  rw [hlen]
  unfold port_only_store
  rw [Settings_impl.scan_skip with_ssl _ _ _ _ _ _ _ (store_of_globals_keys pre)]
  simp only [Settings_impl.scan]
  rw [if_neg (by omega)]

/-- C13 (amended): in `get_data_source`, on a grouped store, a `HOST h` group
with no `PORT` entry yields the endpoint `(h, DEFAULT_MYSQLX_PORT)` and a
`HOST h` group followed by `PORT p` yields `(h, p mod 2^16)`; a store whose
only endpoint group is a `PORT p` entry with no `HOST`, with host count 0,
yields the single endpoint `("localhost", p mod 2^16)`; with a host count
greater than 0 such a store is not accepted: the assertion `0 == m_host_cnt`
fails. -/
theorem C13_host_port_defaults (with_ssl : Bool) :
    (∀ (items : List Item) (host_cnt : Nat) (user_priorities sock : Bool)
      (src src1 : Multi_source),
      (settings_of items host_cnt user_priorities sock).get_data_source with_ssl src =
        (.ok (), src1) →
      src1.targets.map Target.ds = (groups_of items).map (fun g =>
        (⟨g.host, match g.port with
          | some p => p % 65536
          | none => DEFAULT_MYSQLX_PORT⟩ : TCPIP))) ∧
    (∀ (pre post : List Global) (p : Nat) (q : Option Nat) (sock : Bool)
      (src : Multi_source),
      (∃ u, Global.USER u ∈ pre ++ post) → (∀ n, q = some n → n ≤ 100) →
      ∃ src1,
        Settings_impl.get_data_source with_ssl
          ⟨⟨port_only_store pre post p q, 0, q.isSome, sock⟩⟩ src = (.ok (), src1) ∧
        src1.targets.map Target.ds = [⟨"localhost", p % 65536⟩]) ∧
    (∀ (pre post : List Global) (p : Nat) (q : Option Nat) (host_cnt : Nat)
      (user_priorities sock : Bool) (src : Multi_source),
      (∃ u, Global.USER u ∈ pre ++ post) → 0 < host_cnt →
      Settings_impl.get_data_source with_ssl
        ⟨⟨port_only_store pre post p q, host_cnt, user_priorities, sock⟩⟩ src =
        (.error .assertion, ⟨[]⟩)) := by
  refine ⟨?_, ?_, ?_⟩
  · intro items host_cnt user_priorities sock src src1 h
    rw [Settings_impl.get_data_source_grouped_ds with_ssl items host_cnt user_priorities sock
      src src1 h]
    apply List.map_congr_left
    intro g _
    cases hp : g.port <;> simp [Host_group.ds, hp, to_ushort]
  · intro pre post p q sock src hu hq
    obtain ⟨opts, _, hrun⟩ := Settings_impl.get_data_source_scan with_ssl
      ⟨⟨port_only_store pre post p q, 0, q.isSome, sock⟩⟩ src
      (port_only_store_has_user pre post p q 0 q.isSome sock hu)
      (port_only_store_well_typed pre post p q 0 q.isSome sock)
    simp only at hrun
    rw [scan_port_only with_ssl pre post p q sock opts hq] at hrun
    exact ⟨_, hrun, rfl⟩
  · intro pre post p q host_cnt user_priorities sock src hu hcnt
    obtain ⟨opts, _, hrun⟩ := Settings_impl.get_data_source_scan with_ssl
      ⟨⟨port_only_store pre post p q, host_cnt, user_priorities, sock⟩⟩ src
      (port_only_store_has_user pre post p q host_cnt user_priorities sock hu)
      (port_only_store_well_typed pre post p q host_cnt user_priorities sock)
    simp only at hrun
    rw [scan_port_only_refused with_ssl pre post p q host_cnt user_priorities sock _ opts
      hcnt] at hrun
    exact hrun

/-- Witness of C13 (amended): the store `HOST a, PORT 33060, HOST b, PORT 33061,
USER u`, the store `USER u, PORT 33070` with host count 0, and the same store
with host count 1. -/
theorem C13_host_port_defaults_witness :
    ((settings_of two_hosts 2 false false).get_data_source true ⟨[]⟩).2.targets.map
      Target.ds = [⟨"a", 33060⟩, ⟨"b", 33061⟩] ∧
    (∃ src1,
      Settings_impl.get_data_source true
        ⟨⟨port_only_store [.USER "u"] [] 33070 none, 0, false, false⟩⟩ ⟨[]⟩ =
        (.ok (), src1) ∧
      src1.targets.map Target.ds = [⟨"localhost", 33070 % 65536⟩]) ∧
    Settings_impl.get_data_source true
      ⟨⟨port_only_store [.USER "u"] [] 33070 none, 1, false, false⟩⟩ ⟨[]⟩ =
      (.error .assertion, ⟨[]⟩) :=
  ⟨(C13_host_port_defaults true).1 two_hosts 2 false false ⟨[]⟩
      ((settings_of two_hosts 2 false false).get_data_source true ⟨[]⟩).2 rfl,
    (C13_host_port_defaults true).2.1 [.USER "u"] [] 33070 none false ⟨[]⟩ ⟨"u", by simp⟩
      (by simp),
    (C13_host_port_defaults true).2.2 [.USER "u"] [] 33070 none 1 false false ⟨[]⟩
      ⟨"u", by simp⟩ (by decide)⟩

/-- C13 as stated fails: the group `HOST h, PORT 70000` yields the endpoint
`(h, 4464)`, not `(h, 70000)`. -/
theorem C13_counterexample :
    ((settings_of wide_port 1 false false).get_data_source true ⟨[]⟩).1 = .ok () ∧
    ((settings_of wide_port 1 false false).get_data_source true ⟨[]⟩).2.targets.map
      Target.ds = [⟨"h", 4464⟩] ∧
    (⟨"h", 4464⟩ : TCPIP) ≠ ⟨"h", 70000⟩ :=
  ⟨rfl, rfl, by decide⟩

/-! ## The hexadecimal encoding of a GUID -/

theorem GUID.hex_digit_at_mem (n : Nat) (h : n < 16) :
    GUID.hex_digit_at n ∈ GUID.hex_digit := by
  interval_cases n <;> decide

theorem GUID.hex_value_digit (n : Nat) (h : n < 16) :
    GUID.hex_value (GUID.hex_digit_at n) = n := by
  interval_cases n <;> decide

theorem GUID.generate_loop_length (uuid : List Nat) :
    ∀ (fuel i : Nat) (m_data : List Char),
      (GUID.generate_loop uuid fuel i m_data).length = m_data.length := by
  intro fuel
  induction fuel with
  | zero => intro i m_data; rfl
  | succ fuel ih =>
    intro i m_data
    unfold GUID.generate_loop
    split
    · rw [ih]; simp
    · rfl

/-- The loop started at index `i` leaves the characters before `2*i` alone. -/
theorem GUID.generate_loop_below (uuid : List Nat) :
    ∀ (fuel i : Nat) (m_data : List Char) (j : Nat), j < 2 * i →
      (GUID.generate_loop uuid fuel i m_data)[j]? = m_data[j]? := by
  intro fuel
  induction fuel with
  | zero => intro i m_data j _; rfl
  | succ fuel ih =>
    intro i m_data j hj
    unfold GUID.generate_loop
    split
    · rw [ih (i + 1) _ j (by omega), List.getElem?_set_ne (by omega),
        List.getElem?_set_ne (by omega)]
    · rfl

/-- The loop leaves the characters from `2 * sizeof(uuid)` on alone. -/
theorem GUID.generate_loop_beyond (uuid : List Nat) :
    ∀ (fuel i : Nat) (m_data : List Char) (j : Nat), 2 * uuid.length ≤ j →
      (GUID.generate_loop uuid fuel i m_data)[j]? = m_data[j]? := by
  intro fuel
  induction fuel with
  | zero => intro i m_data j _; rfl
  | succ fuel ih =>
    intro i m_data j hj
    unfold GUID.generate_loop
    split
    · rename_i hc
      rw [ih (i + 1) _ j hj, List.getElem?_set_ne (by omega),
        List.getElem?_set_ne (by omega)]
    · rfl

/-- The loop started at index `i0` writes the two digits of every byte from
`i0` on that it has iterations for. -/
theorem GUID.generate_loop_written (uuid : List Nat) :
    ∀ (fuel i0 : Nat) (m_data : List Char) (i : Nat),
      i0 ≤ i → i < i0 + fuel → i < uuid.length → 2 * i + 1 < m_data.length →
      (GUID.generate_loop uuid fuel i0 m_data)[2 * i]? =
        some (GUID.hex_digit_at (uuid.getD i 0 >>> 4)) ∧
      (GUID.generate_loop uuid fuel i0 m_data)[2 * i + 1]? =
        some (GUID.hex_digit_at (uuid.getD i 0 % 16)) := by
  intro fuel
  induction fuel with
  | zero => intro i0 m_data i h1 h2; omega
  | succ fuel ih =>
    intro i0 m_data i h1 h2 h3 h4
    unfold GUID.generate_loop
    rw [if_pos ⟨by omega, by omega⟩]
    by_cases hi : i = i0
    · subst hi
      rw [GUID.generate_loop_below uuid fuel (i + 1) _ (2 * i) (by omega),
        GUID.generate_loop_below uuid fuel (i + 1) _ (2 * i + 1) (by omega)]
      constructor
      · rw [List.getElem?_set_ne (by omega), List.getElem?_set]
        simp
        omega
      · rw [List.getElem?_set]
        simp
        omega
    · exact ih (i0 + 1) _ i (by omega) (by omega) h3 (by simpa using h4)

/-- C20: `GUID::generate` writes the upper-case hexadecimal encoding of the
UUID bytes: for every index `i` with `i < sizeof(uuid)` and
`2*i < sizeof(m_data)` (the buffer having an even size), character `2*i` is
the digit of the high nibble (`byte / 16`) and character `2*i+1` the digit of
the low nibble (`byte mod 16`) of byte `i`, both from "0123456789ABCDEF", so
that decoding the pair gives back the byte; the size of the buffer is kept and
the characters beyond the encoded bytes are unchanged. -/
theorem C20_guid_hex (uuid : List Nat) (m_data : List Char) (i : Nat)
    (hb : ∀ b ∈ uuid, b < 256) (heven : m_data.length % 2 = 0)
    (hi : i < uuid.length) (h2 : 2 * i < m_data.length) :
    (GUID.generate uuid m_data).length = m_data.length ∧
    (GUID.generate uuid m_data)[2 * i]? = some (GUID.hex_digit_at (uuid.getD i 0 / 16)) ∧
    (GUID.generate uuid m_data)[2 * i + 1]? = some (GUID.hex_digit_at (uuid.getD i 0 % 16)) ∧
    GUID.hex_digit_at (uuid.getD i 0 / 16) ∈ GUID.hex_digit ∧
    GUID.hex_digit_at (uuid.getD i 0 % 16) ∈ GUID.hex_digit ∧
    GUID.hex_value (GUID.hex_digit_at (uuid.getD i 0 / 16)) * 16 +
      GUID.hex_value (GUID.hex_digit_at (uuid.getD i 0 % 16)) = uuid.getD i 0 ∧
    (∀ j, 2 * uuid.length ≤ j → (GUID.generate uuid m_data)[j]? = m_data[j]?) := by
  have hbyte : uuid.getD i 0 < 256 := by
    rw [List.getD_eq_getElem _ _ hi]
    exact hb _ (List.getElem_mem hi)
  have hhi : uuid.getD i 0 / 16 < 16 := by omega
  have hlo : uuid.getD i 0 % 16 < 16 := Nat.mod_lt _ (by decide)
  have hshift : uuid.getD i 0 >>> 4 = uuid.getD i 0 / 16 := by
    rw [Nat.shiftRight_eq_div_pow]
  have hw := GUID.generate_loop_written uuid uuid.length 0 m_data i (by omega) (by omega) hi
    (by omega)
  rw [hshift] at hw
  refine ⟨GUID.generate_loop_length uuid _ _ _, hw.1, hw.2,
    GUID.hex_digit_at_mem _ hhi, GUID.hex_digit_at_mem _ hlo, ?_,
    fun j hj => GUID.generate_loop_beyond uuid _ _ _ j hj⟩
  rw [GUID.hex_value_digit _ hhi, GUID.hex_value_digit _ hlo]
  omega

/-- Witness of C20 on a UUID of 16 bytes and a buffer of 32 characters: byte 2
is 35, hexadecimal 23, and characters 4 and 5 are `2` and `3`. -/
theorem C20_guid_hex_witness :
    String.mk (GUID.generate sample_uuid blank_guid) = "000123456789ABCDEFFF102030405060" ∧
    (GUID.generate sample_uuid blank_guid)[2 * 2]? = some '2' ∧
    (GUID.generate sample_uuid blank_guid)[2 * 2 + 1]? = some '3' :=
  have h := C20_guid_hex sample_uuid blank_guid 2 (by decide) (by decide) (by decide)
    (by decide)
  ⟨by decide, h.2.1, h.2.2.1⟩

end mysqlx
